import Mathlib

/-!
# The MIG loader: fetch, verify, replace

A shallow embedding of `src/src/mig/loader/loader.go`.  The loader compares the files of the local
agent installation with the manifest served by the API, fetches every file whose hash differs,
stages it next to the live file, checks its SHA-256 digest against the manifest and renames it
onto the live file.

Go values are embedded as follows.  Byte slices are lists of naturals below 256.  An `error` is
its message, `nil` being `none`.  A `panic` caught by a deferred `recover` is an `Except.error`
carrying the text that `%v` prints for the panic value.  The package-level variables and the file
system are fields of `State`; every call into the operating system, the network or a library that
may fail takes its outcome from `Env`, indexed by a clock that advances with each such call, so
that an outcome may differ from one call to the next.  The model is sequential: messages sent to
the log channel, and the goroutine of `main` that drains that channel, are left out.
-/

namespace Loader

/-! ## SHA-256 (crypto/sha256) and hex formatting (fmt) -/

/-- Right rotation of a 32-bit word. -/
def rotr (x n : Nat) : Nat := ((x >>> n) ||| (x <<< (32 - n))) % 2 ^ 32

/-- The functions of FIPS 180-4, section 4.1.2, on 32-bit words. -/
def bigSigma0 (x : Nat) : Nat := (rotr x 2 ^^^ rotr x 13) ^^^ rotr x 22
def bigSigma1 (x : Nat) : Nat := (rotr x 6 ^^^ rotr x 11) ^^^ rotr x 25
def smallSigma0 (x : Nat) : Nat := (rotr x 7 ^^^ rotr x 18) ^^^ (x >>> 3)
def smallSigma1 (x : Nat) : Nat := (rotr x 17 ^^^ rotr x 19) ^^^ (x >>> 10)
def ch (x y z : Nat) : Nat := (x &&& y) ^^^ ((2 ^ 32 - 1 - x) &&& z)
def maj (x y z : Nat) : Nat := ((x &&& y) ^^^ (x &&& z)) ^^^ (y &&& z)

/-- Round constants of SHA-256, in decimal: the first 32 bits of the fractional parts of the
cube roots of the first 64 primes. -/
def sha256K : List Nat :=
  [1116352408, 1899447441, 3049323471, 3921009573, 961987163, 1508970993,
   2453635748, 2870763221, 3624381080, 310598401, 607225278, 1426881987,
   1925078388, 2162078206, 2614888103, 3248222580, 3835390401, 4022224774,
   264347078, 604807628, 770255983, 1249150122, 1555081692, 1996064986,
   2554220882, 2821834349, 2952996808, 3210313671, 3336571891, 3584528711,
   113926993, 338241895, 666307205, 773529912, 1294757372, 1396182291,
   1695183700, 1986661051, 2177026350, 2456956037, 2730485921, 2820302411,
   3259730800, 3345764771, 3516065817, 3600352804, 4094571909, 275423344,
   430227734, 506948616, 659060556, 883997877, 958139571, 1322822218,
   1537002063, 1747873779, 1955562222, 2024104815, 2227730452, 2361852424,
   2428436474, 2756734187, 3204031479, 3329325298]

/-- Initial chaining value of SHA-256, in decimal: the first 32 bits of the fractional parts of
the square roots of the first 8 primes. -/
def sha256Init : List Nat :=
  [1779033703, 3144134277, 1013904242, 2773480762,
   1359893119, 2600822924, 528734635, 1541459225]

/-- Big-endian encoding of `x` on `n` bytes. -/
def beBytes : Nat → Nat → List Nat
  | 0, _ => []
  | n + 1, x => beBytes n (x / 256) ++ [x % 256]

/-- Message padding: a 0x80 byte, zeros up to 56 mod 64, then the bit length on 8 bytes. -/
def sha256Pad (msg : List Nat) : List Nat :=
  msg ++ [0x80] ++ List.replicate ((119 - msg.length % 64) % 64) 0 ++ beBytes 8 (8 * msg.length)

/-- Reads big-endian 32-bit words off a byte list, `n` of them. -/
def beWords : Nat → List Nat → List Nat
  | 0, _ => []
  | n + 1, b0 :: b1 :: b2 :: b3 :: rest =>
      ((((b0 % 256) * 256 + b1 % 256) * 256 + b2 % 256) * 256 + b3 % 256) :: beWords n rest
  | _ + 1, _ => []

/-- Message schedule: `w` holds the words computed so far, most recent first. -/
def sha256Schedule : Nat → List Nat → List Nat
  | 0, w => w
  | n + 1, w =>
      sha256Schedule n
        (((smallSigma1 (w.getD 1 0) + w.getD 6 0 + smallSigma0 (w.getD 14 0) + w.getD 15 0) % 2 ^ 32) :: w)

/-- One round of the compression function on the working variables `a..h`. -/
def sha256Round (v : List Nat) (k w : Nat) : List Nat :=
  match v with
  | [a, b, c, d, e, f, g, h] =>
      let t1 := (h + bigSigma1 e + ch e f g + k + w) % 2 ^ 32
      let t2 := (bigSigma0 a + maj a b c) % 2 ^ 32
      [(t1 + t2) % 2 ^ 32, a, b, c, (d + t1) % 2 ^ 32, e, f, g]
  | _ => v

def sha256Rounds : List Nat → List Nat → List Nat → List Nat
  | k :: ks, w :: ws, v => sha256Rounds ks ws (sha256Round v k w)
  | _, _, v => v

/-- Compression of one 64-byte block into the chaining value `hs`. -/
def sha256Block (hs : List Nat) (block : List Nat) : List Nat :=
  let w := (sha256Schedule 48 (beWords 16 block).reverse).reverse
  List.zipWith (fun x y => (x + y) % 2 ^ 32) hs (sha256Rounds sha256K w hs)

def sha256Blocks : Nat → List Nat → List Nat → List Nat
  | 0, hs, _ => hs
  | n + 1, hs, bytes => sha256Blocks n (sha256Block hs (bytes.take 64)) (bytes.drop 64)

/-- SHA-256 digest (32 bytes) of a byte sequence, as crypto/sha256 computes it. -/
def sha256 (msg : List Nat) : List Nat :=
  let p := sha256Pad msg
  (sha256Blocks (p.length / 64) sha256Init p).flatMap (beBytes 4)

def hexDigit (d : Nat) : Char :=
  match d with
  | 0 => '0' | 1 => '1' | 2 => '2' | 3 => '3' | 4 => '4' | 5 => '5' | 6 => '6' | 7 => '7'
  | 8 => '8' | 9 => '9' | 10 => 'a' | 11 => 'b' | 12 => 'c' | 13 => 'd' | 14 => 'e' | _ => 'f'

/-- Formats bytes the way `fmt.Sprintf("%x", b)` does: two lower-case hex digits per byte. -/
def sprintfHex (b : List Nat) : String :=
  String.mk (b.flatMap fun x => [hexDigit (x / 16 % 16), hexDigit (x % 16)])

/-! ## Data model -/

/-- The fields of `mig.BundleDictionaryEntry` the loader uses. -/
structure BundleDictionaryEntry where
  Name : String
  Path : String
  SHA256 : String
deriving DecidableEq, Repr

/-- One entry of the manifest, `mig.ManifestEntry`. -/
structure ManifestEntry where
  Name : String
  SHA256 : String
deriving DecidableEq, Repr

/-- The manifest sent by the API, `mig.ManifestResponse`. -/
structure ManifestResponse where
  Entries : List ManifestEntry
deriving DecidableEq, Repr

/-- Request descriptor, `mig.ManifestParameters`; `Object` is empty for a manifest request. -/
structure ManifestParameters where
  OS : String
  Arch : String
  Operator : String
  Object : String
deriving DecidableEq, Repr

/-- One named value of an item, `cljs.Data`; `V` is the type of decoded JSON values. -/
structure CljsData (V : Type) where
  Name : String
  Value : V

/-- One item of a collection, `cljs.Item`. -/
structure CljsItem (V : Type) where
  Data : List (CljsData V)

/-- The collection of a resource, `cljs.Collection`. -/
structure CljsCollection (V : Type) where
  Items : List (CljsItem V)

/-- The response envelope, `cljs.Resource`. -/
structure CljsResource (V : Type) where
  Collection : CljsCollection V

/-- Outcome of one POST: building the request failed, `client.Do` failed, reading the body
failed, or a response with a status code and a body was received. -/
inductive HttpResult where
  | requestErr (msg : String)
  | doErr (msg : String)
  | readErr (status : Nat) (msg : String)
  | response (status : Nat) (body : List Nat)

/-- Equality of results is decidable when equality of errors and of values is. -/
instance instDecidableEqExcept {ε α : Type} [DecidableEq ε] [DecidableEq α] :
    DecidableEq (Except ε α)
  | .error a, .error b =>
    if h : a = b then isTrue (by rw [h]) else isFalse (fun h2 => h (by cases h2; rfl))
  | .ok a, .ok b =>
    if h : a = b then isTrue (by rw [h]) else isFalse (fun h2 => h (by cases h2; rfl))
  | .error _, .ok _ => isFalse (fun h => by cases h)
  | .ok _, .error _ => isFalse (fun h => by cases h)

/-- Calls the model records, in the order they are made. -/
inductive Event where
  | fetchFile (n : String)
  | fetchAndReplace (entry : BundleDictionaryEntry) (sig : String)
  | rename (oldpath newpath : String)
  | runTriggers
deriving DecidableEq, Repr

/-- The file system: the content of each path that holds a file. -/
abbrev FileSystem := String → Option (List Nat)

/-- Package-level variables `haveChanges` and `apiManifest`, the file system, the clock of
environment calls and the record of calls. -/
structure State where
  fs : FileSystem
  haveChanges : Bool
  apiManifest : Option ManifestResponse
  clock : Nat
  trace : List Event

/-- Everything the loader takes from outside `loader.go`: build constants, the API server, the
JSON and gzip libraries, the operating system, and the functions of package `mig` and of the
trigger file.  A `Nat` argument that comes first is the clock. -/
structure Env (V : Type) where
  APIURL : String
  GOOS : String
  GOARCH : String
  Operator : String
  httpPost : Nat → String → ManifestParameters → HttpResult
  jsonUnmarshalResource : List Nat → Except String (Option (CljsResource V))
  jsonMarshal : V → Except String (List Nat)
  jsonUnmarshalManifest : List Nat → Except String ManifestResponse
  jsonUnmarshalFetch : List Nat → Except String (List Nat)
  gzipNewReader : List Nat → Except String (List Nat)
  gzipReadAll : List Nat → Except String (List Nat)
  osOpenFile : Nat → String → Option String
  fdWrite : Nat → String → Option (String × Nat)
  osOpen : Nat → String → Option String
  fdRead : Nat → Except String Nat
  osRename : Nat → String → String → Option String
  initContext : Option String
  getHostBundle : Except String (List BundleDictionaryEntry)
  hashBundle : FileSystem → List BundleDictionaryEntry → Except String (List BundleDictionaryEntry)
  runTriggers : Nat → Option String

/-- Text of the run-time panic raised by dereferencing a nil pointer. -/
def nilDeref : String := "runtime error: invalid memory address or nil pointer dereference"

/-- Text of the run-time panic raised by indexing a slice out of range. -/
def indexOutOfRange : String := "runtime error: index out of range"

/-- Advances the clock by one environment call. -/
def State.tick (s : State) : State := { s with clock := s.clock + 1 }

/-- Replaces the content at one path. -/
def State.setFile (s : State) (path : String) (c : Option (List Nat)) : State :=
  { s with fs := Function.update s.fs path c }

/-- Appends one call to the record. -/
def State.emit (s : State) (e : Event) : State := { s with trace := s.trace ++ [e] }

/-! ## Manifest client -/

/-- The expression `resource.Collection.Items[0].Data[0].Value` on `resource *cljs.Resource`
(nil when the body was the JSON `null`), with the panics of a nil `resource` and of an empty
`Items` or `Data`. -/
def firstValue {V : Type} (resource : Option (CljsResource V)) : Except String V :=
  match resource with
  | none => .error nilDeref
  | some r =>
    match r.Collection.Items with
    | [] => .error indexOutOfRange
    | item :: _ =>
      match item.Data with
      | [] => .error indexOutOfRange
      | d :: _ => .ok d.Value

/-- Go: `valueToManifest`: marshal the value, unmarshal it as a manifest. -/
def valueToManifest {V : Type} (env : Env V) (v : V) : Except String ManifestResponse :=
  match env.jsonMarshal v with
  | .error e => .error e
  | .ok b => env.jsonUnmarshalManifest b

/-- Go: `valueToFetchResponse`: marshal the value, unmarshal it as a fetch response; the result
is the `Data` field of `mig.ManifestFetchResponse`. -/
def valueToFetchResponse {V : Type} (env : Env V) (v : V) : Except String (List Nat) :=
  match env.jsonMarshal v with
  | .error e => .error e
  | .ok b => env.jsonUnmarshalFetch b

/-- The operator sent with a request: `TAGS.Operator`, or "default" when that is empty. -/
def operatorTag {V : Type} (env : Env V) : String :=
  if env.Operator = "" then "default" else env.Operator

/-- Body of `requestManifest`, an error standing for a panic. -/
def requestManifestBody {V : Type} (env : Env V) (s : State) : Except String ManifestResponse :=
  let murl := env.APIURL ++ "manifest"
  let mparam : ManifestParameters :=
    { OS := env.GOOS, Arch := env.GOARCH, Operator := operatorTag env, Object := "" }
  match env.httpPost s.clock murl mparam with
  | .requestErr e => .error e
  | .doErr e => .error e
  | .readErr _ e => .error e
  | .response _ body =>
    match env.jsonUnmarshalResource body with
    | .error e => .error e
    | .ok resource =>
      match firstValue resource with
      | .error e => .error e
      | .ok v => valueToManifest env v

/-- Go: `requestManifest`.  A panic is recovered into an error; `apiManifest` is assigned only
when no step failed. -/
def requestManifest {V : Type} (env : Env V) (s : State) : Option String × State :=
  match requestManifestBody env s with
  | .error e => (some ("requestManifest() -> " ++ e), s.tick)
  | .ok manifest => (none, { s.tick with apiManifest := some manifest })

/-- Body of `fetchFile`, an error standing for a panic. -/
def fetchFileBody {V : Type} (env : Env V) (n : String) (s : State) : Except String (List Nat) :=
  let murl := env.APIURL ++ "manifest/fetch"
  let mparam : ManifestParameters :=
    { OS := env.GOOS, Arch := env.GOARCH, Operator := operatorTag env, Object := n }
  match env.httpPost s.clock murl mparam with
  | .requestErr e => .error e
  | .doErr e => .error e
  | .readErr _ e => .error e
  | .response _ body =>
    match env.jsonUnmarshalResource body with
    | .error e => .error e
    | .ok resource =>
      match firstValue resource with
      | .error e => .error e
      | .ok v =>
        match valueToFetchResponse env v with
        | .error e => .error e
        | .ok data =>
          match env.gzipNewReader data with
          | .error e => .error e
          | .ok gz => env.gzipReadAll gz

/-- Go: `fetchFile`: the decompressed bytes of the file named `n`, or the recovered panic. -/
def fetchFile {V : Type} (env : Env V) (n : String) (s : State) :
    Except String (List Nat) × State :=
  match fetchFileBody env n s with
  | .error e => (.error ("fetchFile() -> " ++ e), (s.emit (.fetchFile n)).tick)
  | .ok ret => (.ok ret, (s.emit (.fetchFile n)).tick)

/-! ## Secure install pipeline -/

/-- The loop of `fetchAndReplace` that reads the staged file through a 4096-byte buffer into the
hash.  `content` is the file being read, `pos` the read offset and `h` the bytes written to the
hash so far.  A read at the end of the file gives `io.EOF` and ends the loop; before the end it
gives between 1 and 4096 bytes, the environment choosing how many.  One unit of `fuel` is spent
per read. -/
def readLoop {V : Type} (env : Env V) (content : List Nat) :
    Nat → Nat → List Nat → State → Except String (List Nat) × State
  | 0, _, _, s => (.error "read loop out of fuel", s)
  | fuel + 1, pos, h, s =>
    match env.fdRead s.clock with
    | .error e => (.error e, s.tick)
    | .ok k =>
      if content.length ≤ pos then (.ok h, s.tick)
      else
        let n := max 1 (min k (min 4096 (content.length - pos)))
        readLoop env content fuel (pos + n) (h ++ (content.drop pos).take n) s.tick

/-- First part of the body of `fetchAndReplace`, up to the closing of the staged file after it
has been read back: fetch the file, write it to the staging path, read the staging path into
the hash.  The result is the bytes written to the hash, or the panic value. -/
def stageAndDigest {V : Type} (env : Env V) (entry : BundleDictionaryEntry) (s : State) :
    Except String (List Nat) × State :=
  match fetchFile env entry.Name s with
  | (.error e, s1) => (.error e, s1)
  | (.ok filebuf, s1) =>
    let reppath := entry.Path ++ ".loader"
    match env.osOpenFile s1.clock reppath with
    | some e => (.error e, s1.tick)
    | none =>
      let s2 := s1.tick.setFile reppath (some [])
      match env.fdWrite s2.clock reppath with
      | some (e, n) => (.error e, s2.tick.setFile reppath (some (filebuf.take n)))
      | none =>
        let s3 := s2.tick.setFile reppath (some filebuf)
        match env.osOpen s3.clock reppath with
        | some e => (.error e, s3.tick)
        | none =>
          match s3.fs reppath with
          | none => (.error "no such file or directory", s3.tick)
          | some content => readLoop env content (content.length + 1) 0 [] s3.tick

/-- Body of `fetchAndReplace`; the first component is the panic value, `none` when the body
runs to its end.  The digest of what was read back is compared with `sig` as strings, and the
staged file is renamed onto the live path when they are equal. -/
def fetchAndReplaceBody {V : Type} (env : Env V) (entry : BundleDictionaryEntry) (sig : String)
    (s : State) : Option String × State :=
  match stageAndDigest env entry s with
  | (.error e, s4) => (some e, s4)
  | (.ok written, s4) =>
    if sig ≠ sprintfHex (sha256 written) then (some "staged file signature mismatch", s4)
    else
      let reppath := entry.Path ++ ".loader"
      let s5 := (s4.emit (.rename reppath entry.Path)).tick
      match env.osRename s4.clock reppath entry.Path with
      | some e => (some e, s5)
      | none => (none, (s5.setFile entry.Path (s5.fs reppath)).setFile reppath none)

/-- Go: `fetchAndReplace`: fetch the file, stage it, check its digest against `sig`, rename it
onto the live path.  A panic is recovered into the returned error. -/
def fetchAndReplace {V : Type} (env : Env V) (entry : BundleDictionaryEntry) (sig : String)
    (s : State) : Option String × State :=
  match fetchAndReplaceBody env entry sig (s.emit (.fetchAndReplace entry sig)) with
  | (some e, s1) => (some ("fetchAndReplace() -> " ++ e), s1)
  | (none, s1) => (none, s1)

/-! ## Reconciler -/

/-- The search loop of `checkEntry`: the first manifest entry named `name`. -/
def findEntry (name : String) : List ManifestEntry → Option ManifestEntry
  | [] => none
  | x :: xs => if x.Name = name then some x else findEntry name xs

/-- Go: `checkEntry`. -/
def checkEntry {V : Type} (env : Env V) (entry : BundleDictionaryEntry) (s : State) :
    Option String × State :=
  match s.apiManifest with
  | none => (some ("checkEntry() -> " ++ nilDeref), s)
  | some manifest =>
    match findEntry entry.Name manifest.Entries with
    | none => (none, s)
    | some compare =>
      if entry.SHA256 = compare.SHA256 then (none, s)
      else
        match fetchAndReplace env entry compare.SHA256 { s with haveChanges := true } with
        | (some e, s1) => (some ("checkEntry() -> " ++ e), s1)
        | (none, s1) => (none, s1)

/-- The loop of `compareManifest`; the first component is the panic value. -/
def compareManifestLoop {V : Type} (env : Env V) :
    List BundleDictionaryEntry → State → Option String × State
  | [], s => (none, s)
  | x :: xs, s =>
    match checkEntry env x s with
    | (some e, s1) => (some e, s1)
    | (none, s1) => compareManifestLoop env xs s1

/-- Go: `compareManifest`. -/
def compareManifest {V : Type} (env : Env V) (hv : List BundleDictionaryEntry) (s : State) :
    Option String × State :=
  match compareManifestLoop env hv s with
  | (some e, s1) => (some ("compareManifest() -> " ++ e), s1)
  | (none, s1) => (none, s1)

/-! ## Bundle inventory and update driver -/

/-- Go: `initializeHaveBundle`. -/
def initializeHaveBundle {V : Type} (env : Env V) (s : State) :
    Except String (List BundleDictionaryEntry) :=
  match env.getHostBundle with
  | .error e => .error ("initializeHaveBundle() -> " ++ e)
  | .ok ret =>
    match env.hashBundle s.fs ret with
    | .error e => .error ("initializeHaveBundle() -> " ++ e)
    | .ok ret => .ok ret

/-- The state a process starts in: the package-level variables hold their zero values. -/
def initialState (fs : FileSystem) : State :=
  { fs := fs, haveChanges := false, apiManifest := none, clock := 0, trace := [] }

/-- Go: `main`, from the file system the process finds.  The first component is the status the
process exits with; `doExit` does not return, so each failure ends the run. -/
def main {V : Type} (env : Env V) (fs : FileSystem) : Nat × State :=
  let s0 := initialState fs
  match env.initContext with
  | some _ => (1, s0)
  | none =>
    match initializeHaveBundle env s0 with
    | .error _ => (1, s0)
    | .ok hv =>
      match requestManifest env s0 with
      | (some _, s1) => (1, s1)
      | (none, s1) =>
        match compareManifest env hv s1 with
        | (some _, s2) => (1, s2)
        | (none, s2) =>
          if s2.haveChanges then
            match env.runTriggers s2.clock with
            | some _ => (1, (s2.emit .runTriggers).tick)
            | none => (0, (s2.emit .runTriggers).tick)
          else (0, s2)

/-- Modelled from the spec: the hash `mig.HashBundle`, which is not among the sources, records
for one path: the hex-encoded digest of the file, or the sentinel for an absent file, which the
loader tests as the empty string. -/
def hashFile (fs : FileSystem) (path : String) : String :=
  match fs path with
  | none => ""
  | some content => sprintfHex (sha256 content)

/-- Modelled from the spec: `mig.HashBundle`, which is not among the sources.  The inventory
computes a content digest for each managed file, and a file that cannot be read yields the
"not found" sentinel rather than aborting the inventory. -/
def HashBundle (fs : FileSystem) (b : List BundleDictionaryEntry) : List BundleDictionaryEntry :=
  b.map fun e => { e with SHA256 := hashFile fs e.Path }

/-! ## A concrete environment -/

/-- An environment in which no call fails.  The server answers every request with status
`status`; the body of a fetch response is the content `files` gives for the requested object; a
JSON value is represented by its encoding, the envelope holds one item with one value, every
value decodes to `manifest` as a manifest, and decompression is the identity.  Reads fill the
buffer. -/
def serverEnv (status : Nat) (manifest : ManifestResponse) (files : String → List Nat) :
    Env (List Nat) where
  APIURL := "https://api.example.net/api/v1/"
  GOOS := "linux"
  GOARCH := "amd64"
  Operator := ""
  httpPost := fun _ _ p => .response status (files p.Object)
  jsonUnmarshalResource := fun body => .ok (some ⟨⟨[⟨[⟨"content", body⟩]⟩]⟩⟩)
  jsonMarshal := fun v => .ok v
  jsonUnmarshalManifest := fun _ => .ok manifest
  jsonUnmarshalFetch := fun b => .ok b
  gzipNewReader := fun b => .ok b
  gzipReadAll := fun b => .ok b
  osOpenFile := fun _ _ => none
  fdWrite := fun _ _ => none
  osOpen := fun _ _ => none
  fdRead := fun _ => .ok 4096
  osRename := fun _ _ _ => none
  initContext := none
  getHostBundle := .ok []
  hashBundle := fun _ b => .ok b
  runTriggers := fun _ => none

/-- The three bytes of "abc". -/
def abc : List Nat := [0x61, 0x62, 0x63]

/-- The SHA-256 digest of "abc" in lower-case hex. -/
def abcDigest : String := "ba7816bf8f01cfea414140de5dae2223b00361a396177a9cb410ff61f20015ad"

/-- A bundle entry whose recorded hash is out of date. -/
def agentBin : BundleDictionaryEntry := ⟨"agent-bin", "/opt/a/bin", "aaa"⟩

/-- A file system that holds an old agent binary and nothing else. -/
def oldFs : FileSystem := fun p => if p = "/opt/a/bin" then some [1, 2, 3] else none

/-- The SHA-256 digest of the empty file in lower-case hex. -/
def emptyDigest : String := "e3b0c44298fc1c149afbf4c8996fb92427ae41e4649b934ca495991b7852b855"

/-- An environment in which no call fails, whose host bundle is `bundle` hashed as
`HashBundle` hashes it. -/
def driverEnv (status : Nat) (manifest : ManifestResponse) (files : String → List Nat)
    (bundle : List BundleDictionaryEntry) : Env (List Nat) :=
  { serverEnv status manifest files with
    getHostBundle := .ok bundle
    hashBundle := fun fs b => .ok (HashBundle fs b) }

/-- The environment `env` with the status code of every response replaced by `status`. -/
def withStatus {V : Type} (env : Env V) (status : Nat) : Env V :=
  { env with
    httpPost := fun c u p =>
      match env.httpPost c u p with
      | .response _ body => .response status body
      | r => r }

/-- Two bundle entries that share one live path. -/
def sharedBundle : List BundleDictionaryEntry :=
  [⟨"agent-bin", "/opt/a/bin", ""⟩, ⟨"agent-cfg", "/opt/a/bin", ""⟩]

/-- A manifest that gives the two entries of `sharedBundle` different hashes. -/
def sharedManifest : ManifestResponse :=
  ⟨[⟨"agent-bin", abcDigest⟩, ⟨"agent-cfg", emptyDigest⟩]⟩

/-- An environment in which no call fails and the server holds "abc" for "agent-bin" and the
empty file for every other name. -/
def sharedEnv : Env (List Nat) :=
  serverEnv 200 sharedManifest fun n => if n = "agent-bin" then abc else []

/-- A first reconciliation of `sharedBundle` against `sharedManifest`, over the inventory of
`oldFs`. -/
def sharedRunOne : Option String × State :=
  compareManifest sharedEnv (HashBundle oldFs sharedBundle)
    { initialState oldFs with apiManifest := some sharedManifest }

/-- A second reconciliation, in a new process, against the same manifest, over the inventory
of the file system the first one left. -/
def sharedRunTwo : Option String × State :=
  compareManifest sharedEnv (HashBundle sharedRunOne.2.fs sharedBundle)
    { initialState sharedRunOne.2.fs with apiManifest := some sharedManifest }

/-- Two bundle entries, the live path of the second being the staging path of the first. -/
def stagingBundle : List BundleDictionaryEntry :=
  [⟨"agent-bin", "/opt/a/bin", ""⟩, ⟨"agent-cfg", "/opt/a/bin.loader", ""⟩]

/-- A file system that holds an old agent binary and, at "/opt/a/bin.loader", an empty file. -/
def stagingFs : FileSystem := fun p =>
  if p = "/opt/a/bin" then some [1, 2, 3] else if p = "/opt/a/bin.loader" then some [] else none

/-- A first reconciliation of `stagingBundle` against `sharedManifest`, over the inventory of
`stagingFs`, in which the second entry is up to date. -/
def stagingRunOne : Option String × State :=
  compareManifest sharedEnv (HashBundle stagingFs stagingBundle)
    { initialState stagingFs with apiManifest := some sharedManifest }

/-- A second reconciliation, in a new process, against the same manifest, over the inventory
of the file system the first one left. -/
def stagingRunTwo : Option String × State :=
  compareManifest sharedEnv (HashBundle stagingRunOne.2.fs stagingBundle)
    { initialState stagingRunOne.2.fs with apiManifest := some sharedManifest }

/-- An environment in which every response body is the JSON `null`. -/
def nullBodyEnv : Env (List Nat) :=
  { serverEnv 200 ⟨[]⟩ (fun _ => abc) with jsonUnmarshalResource := fun _ => .ok none }

/-! ## Predicates used in the statements -/

/-- No two entries of the list share a live path, and no live path of one is the staging path
of another. -/
def pathsApart (l : List BundleDictionaryEntry) : Prop :=
  l.Pairwise fun a b =>
    a.Path ≠ b.Path ∧ a.Path ≠ b.Path ++ ".loader" ∧ b.Path ≠ a.Path ++ ".loader"

/-- Two states that differ at most in their clock. -/
def State.sameButClock (s t : State) : Prop :=
  t.fs = s.fs ∧ t.haveChanges = s.haveChanges ∧ t.apiManifest = s.apiManifest ∧ t.trace = s.trace

/-! ## Lemmas on the read loop and the staging phase -/

@[simp] theorem State.emit_fs (s : State) (e : Event) : (s.emit e).fs = s.fs := rfl
@[simp] theorem State.emit_haveChanges (s : State) (e : Event) :
    (s.emit e).haveChanges = s.haveChanges := rfl
@[simp] theorem State.emit_apiManifest (s : State) (e : Event) :
    (s.emit e).apiManifest = s.apiManifest := rfl
@[simp] theorem State.emit_trace (s : State) (e : Event) : (s.emit e).trace = s.trace ++ [e] := rfl
@[simp] theorem State.tick_fs (s : State) : s.tick.fs = s.fs := rfl
@[simp] theorem State.tick_haveChanges (s : State) : s.tick.haveChanges = s.haveChanges := rfl
@[simp] theorem State.tick_apiManifest (s : State) : s.tick.apiManifest = s.apiManifest := rfl
@[simp] theorem State.tick_trace (s : State) : s.tick.trace = s.trace := rfl
@[simp] theorem State.setFile_fs (s : State) (p : String) (c : Option (List Nat)) :
    (s.setFile p c).fs = Function.update s.fs p c := rfl
@[simp] theorem State.setFile_haveChanges (s : State) (p : String) (c : Option (List Nat)) :
    (s.setFile p c).haveChanges = s.haveChanges := rfl
@[simp] theorem State.setFile_apiManifest (s : State) (p : String) (c : Option (List Nat)) :
    (s.setFile p c).apiManifest = s.apiManifest := rfl
@[simp] theorem State.setFile_trace (s : State) (p : String) (c : Option (List Nat)) :
    (s.setFile p c).trace = s.trace := rfl

theorem path_ne_staging (p : String) : p ≠ p ++ ".loader" := by
  intro h
  have h2 := congrArg String.length h
  rw [String.length_append] at h2
  have h3 : ".loader".length = 7 := by decide
  omega

set_option maxRecDepth 100000 in
theorem sha256_empty : sprintfHex (sha256 []) = emptyDigest := by decide

set_option maxRecDepth 100000 in
theorem sha256_abc : sprintfHex (sha256 abc) = abcDigest := by decide

set_option maxRecDepth 100000 in
theorem sha256_two_blocks :
    sprintfHex (sha256 (List.replicate 64 0x61)) =
      "ffe054fe7ae0cb6dc65c3af9b61d5209f439851db43d0ba5997337df154668eb" := by decide

theorem readLoop_state {V : Type} (env : Env V) (content : List Nat) (fuel : Nat) :
    ∀ (pos : Nat) (h : List Nat) (s : State),
      s.sameButClock (readLoop env content fuel pos h s).2 := by
  induction fuel with
  | zero => intro pos h s; exact ⟨rfl, rfl, rfl, rfl⟩
  | succ fuel ih =>
    intro pos h s
    unfold readLoop
    split
    · exact ⟨rfl, rfl, rfl, rfl⟩
    · split
      · exact ⟨rfl, rfl, rfl, rfl⟩
      · exact ih _ _ s.tick

theorem readLoop_ok {V : Type} (env : Env V) (content : List Nat) (fuel : Nat) :
    ∀ (pos : Nat) (h : List Nat) (s : State) (w : List Nat),
      content.length - pos < fuel →
      (readLoop env content fuel pos h s).1 = .ok w → w = h ++ content.drop pos := by
  induction fuel with
  | zero => intro pos h s w hf; omega
  | succ fuel ih =>
    intro pos h s w hf hr
    unfold readLoop at hr
    split at hr
    · cases hr
    · split at hr
      next hle =>
        cases hr
        simp [List.drop_eq_nil_of_le hle]
      next hlt =>
        have hpos : pos < content.length := by omega
        have := ih _ _ _ _ (by omega) hr
        rw [this, List.append_assoc]
        congr 1
        rw [← List.drop_drop]
        exact List.take_append_drop _ _

theorem readLoop_total {V : Type} (env : Env V) (content : List Nat)
    (hread : ∀ t, ∃ k, env.fdRead t = .ok k) (fuel : Nat) :
    ∀ (pos : Nat) (h : List Nat) (s : State),
      content.length - pos < fuel →
      (readLoop env content fuel pos h s).1 = .ok (h ++ content.drop pos) := by
  induction fuel with
  | zero => intro pos h s hf; omega
  | succ fuel ih =>
    intro pos h s hf
    obtain ⟨k, hk⟩ := hread s.clock
    unfold readLoop
    rw [hk]
    simp only
    split
    next hle => simp [List.drop_eq_nil_of_le hle]
    next hlt =>
      rw [ih _ _ _ (by omega), List.append_assoc]
      congr 2
      rw [← List.drop_drop]
      exact List.take_append_drop _ _

theorem fetchFile_state {V : Type} (env : Env V) (n : String) (s : State) :
    (fetchFile env n s).2 = (s.emit (.fetchFile n)).tick := by
  unfold fetchFile
  split <;> rfl

theorem fetchFile_ok {V : Type} (env : Env V) (n : String) (s : State) (b : List Nat) :
    (fetchFile env n s).1 = .ok b ↔ fetchFileBody env n s = .ok b := by
  unfold fetchFile
  split <;> simp_all

/-- What the staging phase leaves behind: it writes the staging path only, records the one
call of `fetchFile`, and when it succeeds the bytes given to the hash are the fetched bytes,
which are also the content of the staging path. -/
theorem stageAndDigest_spec {V : Type} (env : Env V) (entry : BundleDictionaryEntry)
    (s : State) :
    (∀ p, p ≠ entry.Path ++ ".loader" → (stageAndDigest env entry s).2.fs p = s.fs p) ∧
    (stageAndDigest env entry s).2.haveChanges = s.haveChanges ∧
    (stageAndDigest env entry s).2.apiManifest = s.apiManifest ∧
    (stageAndDigest env entry s).2.trace = s.trace ++ [.fetchFile entry.Name] ∧
    (∀ w, (stageAndDigest env entry s).1 = .ok w →
      (fetchFile env entry.Name s).1 = .ok w ∧
      (stageAndDigest env entry s).2.fs (entry.Path ++ ".loader") = some w) := by
  unfold stageAndDigest
  have h1 := fetchFile_state env entry.Name s
  split
  next e s1 heq =>
    rw [heq] at h1; simp at h1; subst h1
    simp [State.tick, State.emit]
  next filebuf s1 heq =>
    rw [heq] at h1; simp at h1; subst h1
    simp only
    split
    · simp [State.tick, State.emit]
    split
    · simp +contextual [State.setFile, State.tick, State.emit, Function.update]
    split
    · simp +contextual [State.setFile, State.tick, State.emit, Function.update]
    split
    · simp +contextual [State.setFile, State.tick, State.emit, Function.update]
    next content hc =>
      have hst := readLoop_state env content (content.length + 1) 0 []
        (((((s.emit (Event.fetchFile entry.Name)).tick.tick.setFile (entry.Path ++ ".loader")
          (some [])).tick.setFile (entry.Path ++ ".loader") (some filebuf))).tick)
      obtain ⟨hfs, hhc, ham, htr⟩ := hst
      have hcf : content = filebuf := by
        simpa [State.setFile, State.tick, State.emit, Function.update] using hc.symm
      refine ⟨?_, ?_, ?_, ?_, ?_⟩
      · intro p hp
        rw [hfs]
        simp [State.setFile, State.tick, State.emit, Function.update, hp]
      · rw [hhc]; rfl
      · rw [ham]; rfl
      · rw [htr]; rfl
      · intro w hw
        have := readLoop_ok env content _ 0 [] _ w (by omega) hw
        simp at this
        subst this
        subst hcf
        refine ⟨by rw [heq], ?_⟩
        rw [hfs]
        simp [State.setFile, State.tick, State.emit, Function.update]

theorem hexDigit_lower (d : Nat) : (hexDigit d).isUpper = false := by
  unfold hexDigit
  split <;> decide

theorem sprintfHex_lower (b : List Nat) : ∀ c ∈ (sprintfHex b).data, c.isUpper = false := by
  intro c hc
  simp only [sprintfHex, List.mem_flatMap, List.mem_cons, List.mem_singleton, List.not_mem_nil,
    or_false] at hc
  obtain ⟨x, _, hx | hx⟩ := hc <;> subst hx <;> exact hexDigit_lower _

/-- Outcome of the body of `fetchAndReplace` in terms of the staging phase. -/
theorem fetchAndReplaceBody_spec {V : Type} (env : Env V) (entry : BundleDictionaryEntry)
    (sig : String) (s : State) :
    (∀ p, p ≠ entry.Path → p ≠ entry.Path ++ ".loader" →
      (fetchAndReplaceBody env entry sig s).2.fs p = s.fs p) ∧
    (fetchAndReplaceBody env entry sig s).2.haveChanges = s.haveChanges ∧
    (fetchAndReplaceBody env entry sig s).2.apiManifest = s.apiManifest ∧
    ((fetchAndReplaceBody env entry sig s).1 ≠ none →
      (fetchAndReplaceBody env entry sig s).2.fs entry.Path = s.fs entry.Path) ∧
    ((fetchAndReplaceBody env entry sig s).1 = none →
      ∃ b, (stageAndDigest env entry s).1 = .ok b ∧
        sig = sprintfHex (sha256 b) ∧
        (fetchAndReplaceBody env entry sig s).2.fs entry.Path = some b ∧
        (fetchAndReplaceBody env entry sig s).2.fs (entry.Path ++ ".loader") = none ∧
        (fetchAndReplaceBody env entry sig s).2.trace = s.trace ++
          [.fetchFile entry.Name, .rename (entry.Path ++ ".loader") entry.Path]) := by
  have hne := path_ne_staging entry.Path
  obtain ⟨hfr, hhc, ham, htr, hok⟩ := stageAndDigest_spec env entry s
  unfold fetchAndReplaceBody
  rcases hsd : stageAndDigest env entry s with ⟨r, s4⟩
  rw [hsd] at hfr hhc ham htr hok
  simp only at hfr hhc ham htr hok
  cases r with
  | error e =>
    simp only
    refine ⟨?_, hhc, ham, ?_, ?_⟩
    · intro p _ hp2; exact hfr p hp2
    · intro _; exact hfr _ hne
    · intro h; simp at h
  | ok w =>
    obtain ⟨hff, hst⟩ := hok w rfl
    simp only
    split
    · refine ⟨?_, hhc, ham, ?_, ?_⟩
      · intro p _ hp2; exact hfr p hp2
      · intro _; exact hfr _ hne
      · intro h; simp at h
    next heq =>
      simp only [ne_eq, Decidable.not_not] at heq
      split
      · refine ⟨?_, by simpa using hhc, by simpa using ham, ?_, ?_⟩
        · intro p _ hp2; simpa using hfr p hp2
        · intro _; simpa using hfr _ hne
        · intro h; simp at h
      · refine ⟨?_, by simpa using hhc, by simpa using ham, ?_, ?_⟩
        · intro p hp1 hp2
          simp [Function.update, hp1, hp2, hfr p hp2]
        · intro h; simp at h
        · intro _
          refine ⟨w, rfl, heq, ?_, ?_, ?_⟩
          · simp [Function.update, hne, hst]
          · simp [Function.update]
          · simp [htr]

theorem fetchAndReplace_fst {V : Type} (env : Env V) (entry : BundleDictionaryEntry)
    (sig : String) (s : State) :
    (fetchAndReplace env entry sig s).1 =
      (fetchAndReplaceBody env entry sig (s.emit (.fetchAndReplace entry sig))).1.map
        ("fetchAndReplace() -> " ++ ·) := by
  unfold fetchAndReplace
  split <;> simp_all

theorem fetchAndReplace_snd {V : Type} (env : Env V) (entry : BundleDictionaryEntry)
    (sig : String) (s : State) :
    (fetchAndReplace env entry sig s).2 =
      (fetchAndReplaceBody env entry sig (s.emit (.fetchAndReplace entry sig))).2 := by
  unfold fetchAndReplace
  split <;> simp_all

theorem fetchAndReplaceBody_of_error {V : Type} (env : Env V) (entry : BundleDictionaryEntry)
    (sig : String) (s : State) (e : String) (h : (stageAndDigest env entry s).1 = .error e) :
    fetchAndReplaceBody env entry sig s = (some e, (stageAndDigest env entry s).2) := by
  unfold fetchAndReplaceBody
  rcases hsd : stageAndDigest env entry s with ⟨r, s4⟩
  rw [hsd] at h
  simp only at h
  subst h
  rfl

theorem fetchAndReplaceBody_of_mismatch {V : Type} (env : Env V)
    (entry : BundleDictionaryEntry) (sig : String) (s : State) (w : List Nat)
    (h : (stageAndDigest env entry s).1 = .ok w) (hs : sig ≠ sprintfHex (sha256 w)) :
    fetchAndReplaceBody env entry sig s =
      (some "staged file signature mismatch", (stageAndDigest env entry s).2) := by
  unfold fetchAndReplaceBody
  rcases hsd : stageAndDigest env entry s with ⟨r, s4⟩
  rw [hsd] at h
  simp only at h
  subst h
  simp [hs]

theorem fetchAndReplaceBody_of_match {V : Type} (env : Env V)
    (entry : BundleDictionaryEntry) (sig : String) (s : State) (w : List Nat)
    (h : (stageAndDigest env entry s).1 = .ok w) (hs : sig = sprintfHex (sha256 w)) :
    (fetchAndReplaceBody env entry sig s).2.trace =
      s.trace ++ [.fetchFile entry.Name, .rename (entry.Path ++ ".loader") entry.Path] := by
  have htr := (stageAndDigest_spec env entry s).2.2.2.1
  unfold fetchAndReplaceBody
  rcases hsd : stageAndDigest env entry s with ⟨r, s4⟩
  rw [hsd] at h htr
  simp only at h htr
  subst h
  simp only [hs, ne_eq, not_true_eq_false, if_false]
  split <;> simp [htr]

/-! ## Claims on the install pipeline -/

/-- C1. No install without verification: when the bytes that the staging phase of
`fetchAndReplace` leaves at `entry.Path ++ ".loader"` do not have `sig` as the lower-case hex
form of their SHA-256 digest, `fetchAndReplace` returns an error, the calls it makes are the
fetch alone (no rename), and the live file at `entry.Path` is what it was before the call. -/
theorem fetchAndReplace_no_install_without_verification {V : Type} (env : Env V)
    (entry : BundleDictionaryEntry) (sig : String) (s : State)
    (h : ∀ c, (stageAndDigest env entry (s.emit (.fetchAndReplace entry sig))).2.fs
        (entry.Path ++ ".loader") = some c → sprintfHex (sha256 c) ≠ sig) :
    (fetchAndReplace env entry sig s).1 ≠ none ∧
    (fetchAndReplace env entry sig s).2.trace =
      s.trace ++ [.fetchAndReplace entry sig, .fetchFile entry.Name] ∧
    (fetchAndReplace env entry sig s).2.fs entry.Path = s.fs entry.Path := by
  have hne := path_ne_staging entry.Path
  obtain ⟨hfr, _, _, htr, hok⟩ :=
    stageAndDigest_spec env entry (s.emit (.fetchAndReplace entry sig))
  rw [fetchAndReplace_fst, fetchAndReplace_snd]
  cases hsd : (stageAndDigest env entry (s.emit (.fetchAndReplace entry sig))).1 with
  | error e =>
    rw [fetchAndReplaceBody_of_error env entry sig _ e hsd]
    refine ⟨by simp, ?_, ?_⟩
    · simpa using htr
    · simpa using hfr _ hne
  | ok w =>
    have hs : sig ≠ sprintfHex (sha256 w) := fun hh => h w (hok w hsd).2 hh.symm
    rw [fetchAndReplaceBody_of_mismatch env entry sig _ w hsd hs]
    refine ⟨by simp, ?_, ?_⟩
    · simpa using htr
    · simpa using hfr _ hne

set_option maxRecDepth 100000 in
theorem fetchAndReplace_no_install_without_verification_witness :
    (fetchAndReplace (serverEnv 200 ⟨[]⟩ fun _ => abc) agentBin "bbb" (initialState oldFs)).1
      ≠ none ∧
    (fetchAndReplace (serverEnv 200 ⟨[]⟩ fun _ => abc) agentBin "bbb"
      (initialState oldFs)).2.trace =
      [] ++ [.fetchAndReplace agentBin "bbb", .fetchFile "agent-bin"] ∧
    (fetchAndReplace (serverEnv 200 ⟨[]⟩ fun _ => abc) agentBin "bbb"
      (initialState oldFs)).2.fs "/opt/a/bin" = some [1, 2, 3] :=
  fetchAndReplace_no_install_without_verification (serverEnv 200 ⟨[]⟩ fun _ => abc) agentBin
    "bbb" (initialState oldFs) (by
      intro c hc
      have hst : (stageAndDigest (serverEnv 200 ⟨[]⟩ fun _ => abc) agentBin
          ((initialState oldFs).emit (.fetchAndReplace agentBin "bbb"))).2.fs
          (agentBin.Path ++ ".loader") = some abc := by decide
      rw [hst] at hc
      cases hc
      decide)

/-- C2. Successful install: when `fetchAndReplace` returns no error, the staging phase has
given the hash exactly the bytes `b` that `fetchFile` returned, the live file at `entry.Path`
holds `b`, and the lower-case hex SHA-256 digest of `b` is `sig`.  The read loop
feeds the hash the whole file whatever its length: when it ends without error the bytes it has
written to the hash are the content, and it does end without error whenever no read fails. -/
theorem fetchAndReplace_success_installs_verified {V : Type} (env : Env V)
    (entry : BundleDictionaryEntry) (sig : String) (s : State)
    (h : (fetchAndReplace env entry sig s).1 = none) :
    (∃ b, (fetchFile env entry.Name (s.emit (.fetchAndReplace entry sig))).1 = .ok b ∧
      (stageAndDigest env entry (s.emit (.fetchAndReplace entry sig))).1 = .ok b ∧
      (fetchAndReplace env entry sig s).2.fs entry.Path = some b ∧
      sprintfHex (sha256 b) = sig) ∧
    (∀ (content : List Nat) (t : State) (w : List Nat),
      (readLoop env content (content.length + 1) 0 [] t).1 = .ok w → w = content) ∧
    (∀ (content : List Nat) (t : State), (∀ c, ∃ k, env.fdRead c = .ok k) →
      (readLoop env content (content.length + 1) 0 [] t).1 = .ok content) := by
  have hb := (fetchAndReplaceBody_spec env entry sig
    (s.emit (.fetchAndReplace entry sig))).2.2.2.2
  rw [fetchAndReplace_fst] at h
  rw [fetchAndReplace_snd]
  obtain ⟨b, hsd, hsig, hfs, _, _⟩ := hb (by simpa using h)
  have hff := ((stageAndDigest_spec env entry
    (s.emit (.fetchAndReplace entry sig))).2.2.2.2 b hsd).1
  refine ⟨⟨b, hff, hsd, hfs, hsig.symm⟩, ?_, ?_⟩
  · intro content t w hw
    simpa using readLoop_ok env content _ 0 [] t w (by omega) hw
  · intro content t hread
    simpa using readLoop_total env content hread _ 0 [] t (by omega)

set_option maxRecDepth 100000 in
theorem fetchAndReplace_success_installs_verified_witness :
    (fetchAndReplace (serverEnv 200 ⟨[]⟩ fun _ => abc) agentBin abcDigest
      (initialState oldFs)).1 = none ∧
    ∃ b, (fetchFile (serverEnv 200 ⟨[]⟩ fun _ => abc) "agent-bin"
        ((initialState oldFs).emit (.fetchAndReplace agentBin abcDigest))).1 = .ok b ∧
      (stageAndDigest (serverEnv 200 ⟨[]⟩ fun _ => abc) agentBin
        ((initialState oldFs).emit (.fetchAndReplace agentBin abcDigest))).1 = .ok b ∧
      (fetchAndReplace (serverEnv 200 ⟨[]⟩ fun _ => abc) agentBin abcDigest
        (initialState oldFs)).2.fs "/opt/a/bin" = some b ∧
      sprintfHex (sha256 b) = abcDigest :=
  ⟨by decide,
   (fetchAndReplace_success_installs_verified (serverEnv 200 ⟨[]⟩ fun _ => abc) agentBin
     abcDigest (initialState oldFs) (by decide)).1⟩

/-- C8, as the code has it.  The integrity comparison is an exact comparison of strings
against the lower-case hex digest.  When the staging phase has read back the bytes `w`: if
`sig` is exactly `sprintfHex (sha256 w)` the staged file is renamed onto `entry.Path`;
if `sig` is any other string the call fails with the signature mismatch, makes no rename and
leaves the live file as it was; and a `sig` with an upper-case letter in it is never equal to
the digest, so it always fails so. -/
theorem fetchAndReplace_compare_exact {V : Type} (env : Env V)
    (entry : BundleDictionaryEntry) (sig : String) (s : State) (w : List Nat)
    (hw : (stageAndDigest env entry (s.emit (.fetchAndReplace entry sig))).1 = .ok w) :
    (sig = sprintfHex (sha256 w) →
      (fetchAndReplace env entry sig s).2.trace = s.trace ++
        [.fetchAndReplace entry sig, .fetchFile entry.Name,
         .rename (entry.Path ++ ".loader") entry.Path]) ∧
    (sig ≠ sprintfHex (sha256 w) →
      (fetchAndReplace env entry sig s).1 =
        some "fetchAndReplace() -> staged file signature mismatch" ∧
      (fetchAndReplace env entry sig s).2.trace =
        s.trace ++ [.fetchAndReplace entry sig, .fetchFile entry.Name] ∧
      (fetchAndReplace env entry sig s).2.fs entry.Path = s.fs entry.Path) ∧
    ((∃ c ∈ sig.data, c.isUpper = true) →
      (fetchAndReplace env entry sig s).1 =
        some "fetchAndReplace() -> staged file signature mismatch") := by
  have hne := path_ne_staging entry.Path
  obtain ⟨hfr, _, _, htr, _⟩ :=
    stageAndDigest_spec env entry (s.emit (.fetchAndReplace entry sig))
  have hmis : sig ≠ sprintfHex (sha256 w) →
      (fetchAndReplace env entry sig s).1 =
        some "fetchAndReplace() -> staged file signature mismatch" ∧
      (fetchAndReplace env entry sig s).2.trace =
        s.trace ++ [.fetchAndReplace entry sig, .fetchFile entry.Name] ∧
      (fetchAndReplace env entry sig s).2.fs entry.Path = s.fs entry.Path := by
    intro hs
    rw [fetchAndReplace_fst, fetchAndReplace_snd,
      fetchAndReplaceBody_of_mismatch env entry sig _ w hw hs]
    refine ⟨by simp, ?_, ?_⟩
    · simpa using htr
    · simpa using hfr _ hne
  refine ⟨?_, hmis, ?_⟩
  · intro hs
    rw [fetchAndReplace_snd, fetchAndReplaceBody_of_match env entry sig _ w hw hs]
    simp
  · rintro ⟨c, hc, hup⟩
    refine (hmis ?_).1
    intro hs
    rw [hs] at hc
    have := sprintfHex_lower _ c hc
    rw [this] at hup
    cases hup

set_option maxRecDepth 100000 in
theorem fetchAndReplace_compare_exact_witness :
    (fetchAndReplace (serverEnv 200 ⟨[]⟩ fun _ => abc) agentBin abcDigest
      (initialState oldFs)).2.trace =
      [] ++ [.fetchAndReplace agentBin abcDigest, .fetchFile "agent-bin",
        .rename "/opt/a/bin.loader" "/opt/a/bin"] :=
  (fetchAndReplace_compare_exact (serverEnv 200 ⟨[]⟩ fun _ => abc) agentBin abcDigest
    (initialState oldFs) abc (by decide)).1 (by decide)

set_option maxRecDepth 100000 in
/-- C8 fails as stated: with `sig` the digest of the staged bytes written in upper case,
`fetchAndReplace` fails with the signature mismatch and does not rename. -/
theorem fetchAndReplace_upper_case_rejected :
    "BA7816BF8F01CFEA414140DE5DAE2223B00361A396177A9CB410FF61F20015AD".data.map Char.toLower
      = (sprintfHex (sha256 abc)).data ∧
    (stageAndDigest (serverEnv 200 ⟨[]⟩ fun _ => abc) agentBin
      ((initialState oldFs).emit (.fetchAndReplace agentBin
        "BA7816BF8F01CFEA414140DE5DAE2223B00361A396177A9CB410FF61F20015AD"))).1 = .ok abc ∧
    (fetchAndReplace (serverEnv 200 ⟨[]⟩ fun _ => abc) agentBin
      "BA7816BF8F01CFEA414140DE5DAE2223B00361A396177A9CB410FF61F20015AD"
      (initialState oldFs)).1 = some "fetchAndReplace() -> staged file signature mismatch" ∧
    (fetchAndReplace (serverEnv 200 ⟨[]⟩ fun _ => abc) agentBin
      "BA7816BF8F01CFEA414140DE5DAE2223B00361A396177A9CB410FF61F20015AD"
      (initialState oldFs)).2.trace =
      [.fetchAndReplace agentBin
        "BA7816BF8F01CFEA414140DE5DAE2223B00361A396177A9CB410FF61F20015AD",
       .fetchFile "agent-bin"] ∧
    (fetchAndReplace (serverEnv 200 ⟨[]⟩ fun _ => abc) agentBin
      "BA7816BF8F01CFEA414140DE5DAE2223B00361A396177A9CB410FF61F20015AD"
      (initialState oldFs)).2.fs "/opt/a/bin" = some [1, 2, 3] := by
  decide


/-! ## Lemmas on the reconciler -/

theorem findEntry_eq_none (n : String) (l : List ManifestEntry) :
    findEntry n l = none ↔ ∀ x ∈ l, x.Name ≠ n := by
  induction l with
  | nil => simp [findEntry]
  | cons y ys ih =>
    unfold findEntry
    by_cases h : y.Name = n <;> simp [h, ih]

theorem findEntry_first (n : String) (pre post : List ManifestEntry) (x : ManifestEntry)
    (hx : x.Name = n) (hpre : ∀ y ∈ pre, y.Name ≠ n) :
    findEntry n (pre ++ x :: post) = some x := by
  induction pre with
  | nil => simp [findEntry, hx]
  | cons y ys ih =>
    have hy : y.Name ≠ n := hpre y (by simp)
    simp only [List.cons_append, findEntry, hy, if_false]
    exact ih (fun z hz => hpre z (by simp [hz]))

theorem findEntry_some (n : String) (l : List ManifestEntry) (x : ManifestEntry)
    (h : findEntry n l = some x) :
    ∃ pre post, l = pre ++ x :: post ∧ x.Name = n ∧ ∀ y ∈ pre, y.Name ≠ n := by
  induction l with
  | nil => simp [findEntry] at h
  | cons y ys ih =>
    unfold findEntry at h
    by_cases hy : y.Name = n
    · simp only [hy, if_true, Option.some.injEq] at h
      subst h
      exact ⟨[], ys, rfl, hy, by simp⟩
    · simp only [hy, if_false] at h
      obtain ⟨pre, post, hl, hx, hpre⟩ := ih h
      refine ⟨y :: pre, post, by simp [hl], hx, ?_⟩
      intro z hz
      rcases List.mem_cons.mp hz with rfl | hz
      · exact hy
      · exact hpre z hz

theorem fetchAndReplace_trace {V : Type} (env : Env V) (entry : BundleDictionaryEntry)
    (sig : String) (s : State) :
    (fetchAndReplace env entry sig s).2.trace =
        s.trace ++ [.fetchAndReplace entry sig, .fetchFile entry.Name] ∨
    (fetchAndReplace env entry sig s).2.trace =
        s.trace ++ [.fetchAndReplace entry sig, .fetchFile entry.Name,
          .rename (entry.Path ++ ".loader") entry.Path] := by
  have htr := (stageAndDigest_spec env entry (s.emit (.fetchAndReplace entry sig))).2.2.2.1
  rw [fetchAndReplace_snd]
  cases hsd : (stageAndDigest env entry (s.emit (.fetchAndReplace entry sig))).1 with
  | error e =>
    rw [fetchAndReplaceBody_of_error env entry sig _ e hsd]
    left; simpa using htr
  | ok w =>
    by_cases hs : sig = sprintfHex (sha256 w)
    · right
      rw [fetchAndReplaceBody_of_match env entry sig _ w hsd hs]
      simp
    · left
      rw [fetchAndReplaceBody_of_mismatch env entry sig _ w hsd hs]
      simpa using htr

theorem fetchAndReplace_frame {V : Type} (env : Env V) (entry : BundleDictionaryEntry)
    (sig : String) (s : State) :
    (∀ p, p ≠ entry.Path → p ≠ entry.Path ++ ".loader" →
      (fetchAndReplace env entry sig s).2.fs p = s.fs p) ∧
    (fetchAndReplace env entry sig s).2.haveChanges = s.haveChanges ∧
    (fetchAndReplace env entry sig s).2.apiManifest = s.apiManifest := by
  obtain ⟨h1, h2, h3, _⟩ := fetchAndReplaceBody_spec env entry sig
    (s.emit (.fetchAndReplace entry sig))
  rw [fetchAndReplace_snd]
  exact ⟨by simpa using h1, by simpa using h2, by simpa using h3⟩

theorem checkEntry_of_none {V : Type} (env : Env V) (entry : BundleDictionaryEntry)
    (s : State) (m : ManifestResponse) (hm : s.apiManifest = some m)
    (hf : findEntry entry.Name m.Entries = none) : checkEntry env entry s = (none, s) := by
  unfold checkEntry
  simp [hm, hf]

theorem checkEntry_of_equal {V : Type} (env : Env V) (entry : BundleDictionaryEntry)
    (s : State) (m : ManifestResponse) (c : ManifestEntry) (hm : s.apiManifest = some m)
    (hf : findEntry entry.Name m.Entries = some c) (he : entry.SHA256 = c.SHA256) :
    checkEntry env entry s = (none, s) := by
  unfold checkEntry
  simp [hm, hf, he]

theorem checkEntry_of_differ {V : Type} (env : Env V) (entry : BundleDictionaryEntry)
    (s : State) (m : ManifestResponse) (c : ManifestEntry) (hm : s.apiManifest = some m)
    (hf : findEntry entry.Name m.Entries = some c) (he : entry.SHA256 ≠ c.SHA256) :
    (checkEntry env entry s).1 =
      (fetchAndReplace env entry c.SHA256 { s with haveChanges := true }).1.map
        ("checkEntry() -> " ++ ·) ∧
    (checkEntry env entry s).2 =
      (fetchAndReplace env entry c.SHA256 { s with haveChanges := true }).2 := by
  unfold checkEntry
  simp only [hm, hf, he, if_false]
  split <;> simp_all


theorem checkEntry_cases {V : Type} (env : Env V) (entry : BundleDictionaryEntry) (s : State) :
    (checkEntry env entry s).2 = s ∨
    ∃ c, (checkEntry env entry s).2 =
      (fetchAndReplace env entry c { s with haveChanges := true }).2 := by
  rcases Option.eq_none_or_eq_some s.apiManifest with hm | ⟨m, hm⟩
  · left; unfold checkEntry; simp [hm]
  · cases hf : findEntry entry.Name m.Entries with
    | none => left; rw [checkEntry_of_none env entry s m hm hf]
    | some c =>
      by_cases he : entry.SHA256 = c.SHA256
      · left; rw [checkEntry_of_equal env entry s m c hm hf he]
      · right; exact ⟨c.SHA256, (checkEntry_of_differ env entry s m c hm hf he).2⟩

theorem checkEntry_frame {V : Type} (env : Env V) (entry : BundleDictionaryEntry) (s : State) :
    (∀ p, p ≠ entry.Path → p ≠ entry.Path ++ ".loader" →
      (checkEntry env entry s).2.fs p = s.fs p) ∧
    (checkEntry env entry s).2.apiManifest = s.apiManifest ∧
    (checkEntry env entry s).2.trace.count .runTriggers = s.trace.count .runTriggers := by
  rcases checkEntry_cases env entry s with h | ⟨c, h⟩
  · rw [h]; exact ⟨fun _ _ _ => rfl, rfl, rfl⟩
  · rw [h]
    obtain ⟨h1, _, h3⟩ := fetchAndReplace_frame env entry c { s with haveChanges := true }
    refine ⟨h1, h3, ?_⟩
    rcases fetchAndReplace_trace env entry c { s with haveChanges := true } with ht | ht <;>
      rw [ht] <;> simp [List.count_cons]

theorem compareManifestLoop_append {V : Type} (env : Env V)
    (a b : List BundleDictionaryEntry) (s : State) :
    compareManifestLoop env (a ++ b) s =
      match compareManifestLoop env a s with
      | (some e, s1) => (some e, s1)
      | (none, s1) => compareManifestLoop env b s1 := by
  induction a generalizing s with
  | nil => simp [compareManifestLoop]
  | cons x xs ih =>
    simp only [List.cons_append, compareManifestLoop]
    rcases hc : checkEntry env x s with ⟨r, s1⟩
    cases r with
    | some e => simp
    | none => simpa using ih s1

theorem compareManifestLoop_frame {V : Type} (env : Env V) (l : List BundleDictionaryEntry) :
    ∀ s : State,
    (∀ p, (∀ y ∈ l, p ≠ y.Path ∧ p ≠ y.Path ++ ".loader") →
      (compareManifestLoop env l s).2.fs p = s.fs p) ∧
    (compareManifestLoop env l s).2.apiManifest = s.apiManifest ∧
    (compareManifestLoop env l s).2.trace.count .runTriggers = s.trace.count .runTriggers := by
  induction l with
  | nil => intro s; exact ⟨fun _ _ => rfl, rfl, rfl⟩
  | cons x xs ih =>
    intro s
    obtain ⟨h1, h2, h3⟩ := checkEntry_frame env x s
    unfold compareManifestLoop
    rcases hc : checkEntry env x s with ⟨r, s1⟩
    rw [hc] at h1 h2 h3
    simp only at h1 h2 h3
    cases r with
    | some e =>
      refine ⟨?_, h2, h3⟩
      intro p hp
      exact h1 p (hp x (by simp)).1 (hp x (by simp)).2
    | none =>
      obtain ⟨g1, g2, g3⟩ := ih s1
      refine ⟨?_, g2.trans h2, g3.trans h3⟩
      intro p hp
      rw [g1 p (fun y hy => hp y (by simp [hy]))]
      exact h1 p (hp x (by simp)).1 (hp x (by simp)).2

theorem compareManifest_fst {V : Type} (env : Env V) (l : List BundleDictionaryEntry)
    (s : State) :
    (compareManifest env l s).1 =
      (compareManifestLoop env l s).1.map ("compareManifest() -> " ++ ·) := by
  unfold compareManifest
  split <;> simp_all

theorem compareManifest_snd {V : Type} (env : Env V) (l : List BundleDictionaryEntry)
    (s : State) : (compareManifest env l s).2 = (compareManifestLoop env l s).2 := by
  unfold compareManifest
  split <;> simp_all

/-! ## Claims on the reconciler -/

/-- C5. Unmatched entries are untouched: for an entry whose `Name` is the `Name` of no entry of
`apiManifest.Entries`, `checkEntry` returns no error and returns the state it was given: no
call is recorded (no `fetchAndReplace`, no fetch, no rename), no file is written, and
`haveChanges` keeps its value. -/
theorem checkEntry_unmatched_untouched {V : Type} (env : Env V)
    (entry : BundleDictionaryEntry) (s : State) (m : ManifestResponse)
    (hm : s.apiManifest = some m) (hno : ∀ x ∈ m.Entries, x.Name ≠ entry.Name) :
    checkEntry env entry s = (none, s) ∧
    (checkEntry env entry s).2.trace = s.trace ∧
    (checkEntry env entry s).2.fs = s.fs ∧
    (checkEntry env entry s).2.haveChanges = s.haveChanges := by
  have h := checkEntry_of_none env entry s m hm ((findEntry_eq_none _ _).mpr hno)
  rw [h]
  exact ⟨rfl, rfl, rfl, rfl⟩

theorem checkEntry_unmatched_untouched_witness :
    (checkEntry (serverEnv 200 ⟨[⟨"other", "bbb"⟩]⟩ fun _ => abc) agentBin
      { initialState oldFs with apiManifest := some ⟨[⟨"other", "bbb"⟩]⟩ }).1 = none ∧
    (checkEntry (serverEnv 200 ⟨[⟨"other", "bbb"⟩]⟩ fun _ => abc) agentBin
      { initialState oldFs with apiManifest := some ⟨[⟨"other", "bbb"⟩]⟩ }).2.trace = [] :=
  ⟨congrArg Prod.fst (checkEntry_unmatched_untouched
      (serverEnv 200 ⟨[⟨"other", "bbb"⟩]⟩ fun _ => abc) agentBin
      { initialState oldFs with apiManifest := some ⟨[⟨"other", "bbb"⟩]⟩ }
      ⟨[⟨"other", "bbb"⟩]⟩ rfl (by decide)).1,
   (checkEntry_unmatched_untouched
      (serverEnv 200 ⟨[⟨"other", "bbb"⟩]⟩ fun _ => abc) agentBin
      { initialState oldFs with apiManifest := some ⟨[⟨"other", "bbb"⟩]⟩ }
      ⟨[⟨"other", "bbb"⟩]⟩ rfl (by decide)).2.1⟩


/-- C6, as the code has it.  When the first entry of the manifest, in manifest order, that
carries the name of the bundle entry has a hash different from the bundle entry's own,
`checkEntry` sets `haveChanges` and calls `fetchAndReplace` once for the entry, with the hash
of that manifest entry as expected hash: the state it returns is the one that call returns,
its error is the error of that call wrapped, and the record of calls grows by that one call of
`fetchAndReplace` followed by calls that are not calls of `fetchAndReplace`. -/
theorem checkEntry_refreshes_on_first_match {V : Type} (env : Env V)
    (entry : BundleDictionaryEntry) (s : State) (m : ManifestResponse)
    (pre post : List ManifestEntry) (c : ManifestEntry)
    (hm : s.apiManifest = some m) (hl : m.Entries = pre ++ c :: post)
    (hc : c.Name = entry.Name) (hpre : ∀ y ∈ pre, y.Name ≠ entry.Name)
    (hne : c.SHA256 ≠ entry.SHA256) :
    (checkEntry env entry s).2.haveChanges = true ∧
    (checkEntry env entry s).2 =
      (fetchAndReplace env entry c.SHA256 { s with haveChanges := true }).2 ∧
    (checkEntry env entry s).1 =
      (fetchAndReplace env entry c.SHA256 { s with haveChanges := true }).1.map
        ("checkEntry() -> " ++ ·) ∧
    (∃ rest, (checkEntry env entry s).2.trace =
        s.trace ++ Event.fetchAndReplace entry c.SHA256 :: rest ∧
      ∀ e ∈ rest, ∀ en sg, e ≠ Event.fetchAndReplace en sg) := by
  have hf : findEntry entry.Name m.Entries = some c := by
    rw [hl]; exact findEntry_first _ _ _ _ hc hpre
  obtain ⟨h1, h2⟩ := checkEntry_of_differ env entry s m c hm hf (fun h => hne h.symm)
  obtain ⟨_, g2, _⟩ := fetchAndReplace_frame env entry c.SHA256 { s with haveChanges := true }
  refine ⟨by rw [h2, g2], h2, h1, ?_⟩
  rw [h2]
  rcases fetchAndReplace_trace env entry c.SHA256 { s with haveChanges := true } with ht | ht
  · exact ⟨[.fetchFile entry.Name], by simpa using ht, by simp⟩
  · exact ⟨[.fetchFile entry.Name, .rename (entry.Path ++ ".loader") entry.Path],
      by simpa using ht, by simp⟩

set_option maxRecDepth 100000 in
theorem checkEntry_refreshes_on_first_match_witness :
    (checkEntry (serverEnv 200 ⟨[⟨"agent-bin", abcDigest⟩]⟩ fun _ => abc) agentBin
      { initialState oldFs with apiManifest := some ⟨[⟨"agent-bin", abcDigest⟩]⟩ }
      ).2.haveChanges = true :=
  (checkEntry_refreshes_on_first_match
    (serverEnv 200 ⟨[⟨"agent-bin", abcDigest⟩]⟩ fun _ => abc) agentBin
    { initialState oldFs with apiManifest := some ⟨[⟨"agent-bin", abcDigest⟩]⟩ }
    ⟨[⟨"agent-bin", abcDigest⟩]⟩ [] [] ⟨"agent-bin", abcDigest⟩ rfl rfl rfl (by simp)
    (by decide)).1

/-- C6 fails as stated: the manifest has two entries named "agent-bin", the first with the
hash of the bundle entry and the second with another hash.  The manifest then has an entry
with the same name and a different hash, yet `checkEntry` compares with the first entry only:
it leaves `haveChanges` false and makes no call. -/
theorem checkEntry_later_duplicate_ignored :
    (∃ x ∈ [(⟨"agent-bin", "aaa"⟩ : ManifestEntry), ⟨"agent-bin", "bbb"⟩],
      x.Name = agentBin.Name ∧ x.SHA256 ≠ agentBin.SHA256) ∧
    (checkEntry (serverEnv 200 ⟨[⟨"agent-bin", "aaa"⟩, ⟨"agent-bin", "bbb"⟩]⟩ fun _ => abc)
      agentBin { initialState oldFs with
        apiManifest := some ⟨[⟨"agent-bin", "aaa"⟩, ⟨"agent-bin", "bbb"⟩]⟩ }).1 = none ∧
    (checkEntry (serverEnv 200 ⟨[⟨"agent-bin", "aaa"⟩, ⟨"agent-bin", "bbb"⟩]⟩ fun _ => abc)
      agentBin { initialState oldFs with
        apiManifest := some ⟨[⟨"agent-bin", "aaa"⟩, ⟨"agent-bin", "bbb"⟩]⟩ }
      ).2.haveChanges = false ∧
    (checkEntry (serverEnv 200 ⟨[⟨"agent-bin", "aaa"⟩, ⟨"agent-bin", "bbb"⟩]⟩ fun _ => abc)
      agentBin { initialState oldFs with
        apiManifest := some ⟨[⟨"agent-bin", "aaa"⟩, ⟨"agent-bin", "bbb"⟩]⟩ }).2.trace = [] := by
  decide

/-- C4. Abort on the first install failure.  The entries are processed in list order; when
the entries before index `pre.length` have been processed without error and `fetchAndReplace`
fails for the entry `x` at that index, `compareManifest` returns that error wrapped, and the
state it returns is the state in which the failed `fetchAndReplace` returned: no entry of
`post` is compared, fetched or installed.  The result does not depend on `post`, and every
path that is neither the live path nor the staging path of an entry up to `x` holds what it
held before the call. -/
theorem compareManifest_aborts_on_first_failure {V : Type} (env : Env V)
    (pre post : List BundleDictionaryEntry) (x : BundleDictionaryEntry) (s si : State)
    (m : ManifestResponse) (c : ManifestEntry) (e : String)
    (hpre : compareManifestLoop env pre s = (none, si))
    (hm : si.apiManifest = some m) (hf : findEntry x.Name m.Entries = some c)
    (hne : x.SHA256 ≠ c.SHA256)
    (hfail : (fetchAndReplace env x c.SHA256 { si with haveChanges := true }).1 = some e) :
    compareManifest env (pre ++ x :: post) s =
      (some ("compareManifest() -> " ++ ("checkEntry() -> " ++ e)),
        (fetchAndReplace env x c.SHA256 { si with haveChanges := true }).2) ∧
    compareManifest env (pre ++ x :: post) s = compareManifest env (pre ++ [x]) s ∧
    (∀ p, (∀ y ∈ pre ++ [x], p ≠ y.Path ∧ p ≠ y.Path ++ ".loader") →
      (compareManifest env (pre ++ x :: post) s).2.fs p = s.fs p) := by
  obtain ⟨h1, h2⟩ := checkEntry_of_differ env x si m c hm hf hne
  rw [hfail] at h1
  have hx : ∀ l, compareManifestLoop env (pre ++ x :: l) s =
      (some ("checkEntry() -> " ++ e),
        (fetchAndReplace env x c.SHA256 { si with haveChanges := true }).2) := by
    intro l
    rw [compareManifestLoop_append, hpre]
    simp only [compareManifestLoop]
    rcases hc : checkEntry env x si with ⟨r, s1⟩
    rw [hc] at h1 h2
    simp only [Option.map_some'] at h1 h2
    subst h1 h2
    rfl
  have hall : ∀ l, compareManifest env (pre ++ x :: l) s =
      (some ("compareManifest() -> " ++ ("checkEntry() -> " ++ e)),
        (fetchAndReplace env x c.SHA256 { si with haveChanges := true }).2) := by
    intro l
    unfold compareManifest
    rw [hx l]
  refine ⟨hall post, by rw [hall post, hall []], ?_⟩
  intro p hp
  have := (compareManifestLoop_frame env (pre ++ [x]) s).1 p hp
  rw [hx []] at this
  rw [hall post]
  exact this


set_option maxRecDepth 100000 in
theorem compareManifest_aborts_on_first_failure_witness :
    compareManifest (serverEnv 200 ⟨[⟨"agent-bin", "bbb"⟩, ⟨"mig-loader", "bbb"⟩]⟩ fun _ => abc)
      ([] ++ agentBin :: [⟨"mig-loader", "/opt/a/loader", ""⟩])
      { initialState oldFs with
        apiManifest := some ⟨[⟨"agent-bin", "bbb"⟩, ⟨"mig-loader", "bbb"⟩]⟩ } =
    compareManifest (serverEnv 200 ⟨[⟨"agent-bin", "bbb"⟩, ⟨"mig-loader", "bbb"⟩]⟩ fun _ => abc)
      ([] ++ [agentBin])
      { initialState oldFs with
        apiManifest := some ⟨[⟨"agent-bin", "bbb"⟩, ⟨"mig-loader", "bbb"⟩]⟩ } :=
  (compareManifest_aborts_on_first_failure
    (serverEnv 200 ⟨[⟨"agent-bin", "bbb"⟩, ⟨"mig-loader", "bbb"⟩]⟩ fun _ => abc)
    [] [⟨"mig-loader", "/opt/a/loader", ""⟩] agentBin
    { initialState oldFs with
      apiManifest := some ⟨[⟨"agent-bin", "bbb"⟩, ⟨"mig-loader", "bbb"⟩]⟩ }
    { initialState oldFs with
      apiManifest := some ⟨[⟨"agent-bin", "bbb"⟩, ⟨"mig-loader", "bbb"⟩]⟩ }
    ⟨[⟨"agent-bin", "bbb"⟩, ⟨"mig-loader", "bbb"⟩]⟩ ⟨"agent-bin", "bbb"⟩
    "fetchAndReplace() -> staged file signature mismatch"
    rfl rfl (by decide) (by decide) (by decide)).2.1

/-! ## Lemmas on the update driver -/

theorem requestManifest_state {V : Type} (env : Env V) (s : State) :
    (requestManifest env s).2.haveChanges = s.haveChanges ∧
    (requestManifest env s).2.trace = s.trace ∧
    (requestManifest env s).2.fs = s.fs ∧
    ((requestManifest env s).1 = none → ∃ m, (requestManifest env s).2.apiManifest = some m) ∧
    ((requestManifest env s).1 ≠ none → (requestManifest env s).2.apiManifest = s.apiManifest)
    := by
  unfold requestManifest
  split <;> simp

theorem compareManifestLoop_haveChanges {V : Type} (env : Env V) (m : ManifestResponse)
    (l : List BundleDictionaryEntry) :
    ∀ s : State, s.apiManifest = some m → (compareManifestLoop env l s).1 = none →
      ((compareManifestLoop env l s).2.haveChanges = true ↔
        (s.haveChanges = true ∨
          ∃ x ∈ l, ∃ c, findEntry x.Name m.Entries = some c ∧ c.SHA256 ≠ x.SHA256)) := by
  induction l with
  | nil => intro s _ _; simp [compareManifestLoop]
  | cons x xs ih =>
    intro s hm hok
    have ham := (checkEntry_frame env x s).2.1
    unfold compareManifestLoop at hok ⊢
    rcases hc : checkEntry env x s with ⟨r, s1⟩
    rw [hc] at hok ham
    simp only at ham
    cases r with
    | some e => simp at hok
    | none =>
      simp only at hok ⊢
      rw [ih s1 (ham.trans hm) hok]
      cases hf : findEntry x.Name m.Entries with
      | none =>
        have := checkEntry_of_none env x s m hm hf
        rw [hc] at this
        cases this
        simp [hf]
      | some c =>
        by_cases he : x.SHA256 = c.SHA256
        · have := checkEntry_of_equal env x s m c hm hf he
          rw [hc] at this
          cases this
          simp [hf, he]
        · have h2 := (checkEntry_of_differ env x s m c hm hf he).2
          rw [hc] at h2
          simp only at h2
          have h3 := (fetchAndReplace_frame env x c.SHA256 { s with haveChanges := true }).2.1
          rw [← h2] at h3
          simp only at h3
          have he2 : ¬ c.SHA256 = x.SHA256 := fun h => he h.symm
          simp [h3, hf, he2]

/-! ## Claim on the update driver -/

/-- C3. Trigger exactly once, if and only if something changed.  In a run of `main` the
record of calls holds `runTriggers` once when the context is set up, `initializeHaveBundle`,
`requestManifest` and `compareManifest` all return no error, and some entry of the have list
is matched by a manifest entry (the first of its name) whose hash differs from the entry's; it
holds `runTriggers` zero times in every other run; and it never holds it more than once. -/
theorem main_triggers_once_iff_changed {V : Type} (env : Env V) (fs : FileSystem) :
    ((env.initContext = none ∧
      ∃ hv, initializeHaveBundle env (initialState fs) = .ok hv ∧
        (requestManifest env (initialState fs)).1 = none ∧
        (compareManifest env hv (requestManifest env (initialState fs)).2).1 = none ∧
        ∃ m, (requestManifest env (initialState fs)).2.apiManifest = some m ∧
          ∃ x ∈ hv, ∃ c, findEntry x.Name m.Entries = some c ∧ c.SHA256 ≠ x.SHA256) →
      (main env fs).2.trace.count .runTriggers = 1) ∧
    (¬ (env.initContext = none ∧
      ∃ hv, initializeHaveBundle env (initialState fs) = .ok hv ∧
        (requestManifest env (initialState fs)).1 = none ∧
        (compareManifest env hv (requestManifest env (initialState fs)).2).1 = none ∧
        ∃ m, (requestManifest env (initialState fs)).2.apiManifest = some m ∧
          ∃ x ∈ hv, ∃ c, findEntry x.Name m.Entries = some c ∧ c.SHA256 ≠ x.SHA256) →
      (main env fs).2.trace.count .runTriggers = 0) ∧
    (main env fs).2.trace.count .runTriggers ≤ 1 := by
  obtain ⟨r1, r2, _, r4, _⟩ := requestManifest_state env (initialState fs)
  have key : ∀ hv, env.initContext = none →
      initializeHaveBundle env (initialState fs) = .ok hv →
      (requestManifest env (initialState fs)).1 = none →
      (compareManifest env hv (requestManifest env (initialState fs)).2).1 = none →
      ∀ m, (requestManifest env (initialState fs)).2.apiManifest = some m →
      (main env fs).2.trace.count .runTriggers =
        if (∃ x ∈ hv, ∃ c, findEntry x.Name m.Entries = some c ∧ c.SHA256 ≠ x.SHA256)
        then 1 else 0 := by
    intro hv h0 h1 h2 h3 m hm
    have hch := compareManifestLoop_haveChanges env m hv
      (requestManifest env (initialState fs)).2 hm
      (by rw [compareManifest_fst] at h3; simpa using h3)
    have hcnt := (compareManifestLoop_frame env hv
      (requestManifest env (initialState fs)).2).2.2
    rw [← compareManifest_snd] at hch hcnt
    rw [r1] at hch
    rw [r2] at hcnt
    unfold main
    simp only [h0, h1]
    rcases hr : requestManifest env (initialState fs) with ⟨a, s1⟩
    rw [hr] at h2 h3 hch hcnt
    simp only at h2 h3 hch hcnt
    subst h2
    simp only
    rcases hcm : compareManifest env hv s1 with ⟨b, s2⟩
    rw [hcm] at h3 hch hcnt
    simp only at h3 hch hcnt
    subst h3
    simp only [initialState, Bool.false_eq_true, false_or, List.count_nil] at hch hcnt
    simp only
    by_cases hex : ∃ x ∈ hv, ∃ c, findEntry x.Name m.Entries = some c ∧ c.SHA256 ≠ x.SHA256
    · have hc2 : s2.haveChanges = true := hch.mpr hex
      simp only [hc2, if_true, hex]
      split <;> simp [hcnt, List.count_cons]
    · have hc2 : s2.haveChanges = false := by
        cases h : s2.haveChanges with
        | false => rfl
        | true => exact absurd (hch.mp h) hex
      simp [hc2, hex, hcnt]
  have zero : ¬ (env.initContext = none ∧
      ∃ hv, initializeHaveBundle env (initialState fs) = .ok hv ∧
        (requestManifest env (initialState fs)).1 = none ∧
        (compareManifest env hv (requestManifest env (initialState fs)).2).1 = none ∧
        ∃ m, (requestManifest env (initialState fs)).2.apiManifest = some m ∧
          ∃ x ∈ hv, ∃ c, findEntry x.Name m.Entries = some c ∧ c.SHA256 ≠ x.SHA256) →
      (main env fs).2.trace.count .runTriggers = 0 := by
    intro hn
    cases h0 : env.initContext with
    | some e => unfold main; simp only [h0]; rfl
    | none =>
      cases h1 : initializeHaveBundle env (initialState fs) with
      | error e => unfold main; simp only [h0, h1]; rfl
      | ok hv =>
        cases h2 : (requestManifest env (initialState fs)).1 with
        | some e =>
          unfold main
          simp only [h0, h1]
          rcases hr : requestManifest env (initialState fs) with ⟨a, s1⟩
          rw [hr] at h2 r2
          simp only at h2 r2
          subst h2
          simp [r2, initialState]
        | none =>
          obtain ⟨m, hm⟩ := r4 h2
          cases h3 : (compareManifest env hv (requestManifest env (initialState fs)).2).1 with
          | some e =>
            have hcnt := (compareManifestLoop_frame env hv
              (requestManifest env (initialState fs)).2).2.2
            rw [← compareManifest_snd, r2] at hcnt
            unfold main
            simp only [h0, h1]
            rcases hr : requestManifest env (initialState fs) with ⟨a, s1⟩
            rw [hr] at h2 h3 hcnt
            simp only at h2 h3 hcnt
            subst h2
            simp only
            rcases hcm : compareManifest env hv s1 with ⟨b, s2⟩
            rw [hcm] at h3 hcnt
            simp only at h3 hcnt
            subst h3
            simpa [initialState] using hcnt
          | none =>
            rw [key hv h0 h1 h2 h3 m hm]
            have : ¬ ∃ x ∈ hv, ∃ c, findEntry x.Name m.Entries = some c ∧
                c.SHA256 ≠ x.SHA256 := by
              intro hex
              exact hn ⟨h0, hv, h1, h2, h3, m, hm, hex⟩
            simp [this]
  refine ⟨?_, zero, ?_⟩
  · rintro ⟨h0, hv, h1, h2, h3, m, hm, hex⟩
    rw [key hv h0 h1 h2 h3 m hm]
    simp [hex]
  · by_cases hcond : (env.initContext = none ∧
      ∃ hv, initializeHaveBundle env (initialState fs) = .ok hv ∧
        (requestManifest env (initialState fs)).1 = none ∧
        (compareManifest env hv (requestManifest env (initialState fs)).2).1 = none ∧
        ∃ m, (requestManifest env (initialState fs)).2.apiManifest = some m ∧
          ∃ x ∈ hv, ∃ c, findEntry x.Name m.Entries = some c ∧ c.SHA256 ≠ x.SHA256)
    · obtain ⟨h0, hv, h1, h2, h3, m, hm, hex⟩ := hcond
      rw [key hv h0 h1 h2 h3 m hm]
      simp [hex]
    · rw [zero hcond]
      omega

set_option maxRecDepth 100000 in
theorem main_triggers_once_iff_changed_witness :
    (main (driverEnv 200 ⟨[⟨"agent-bin", abcDigest⟩]⟩ (fun _ => abc) [agentBin])
      oldFs).2.trace.count .runTriggers = 1 :=
  (main_triggers_once_iff_changed
    (driverEnv 200 ⟨[⟨"agent-bin", abcDigest⟩]⟩ (fun _ => abc) [agentBin]) oldFs).1
    ⟨rfl, HashBundle oldFs [agentBin], rfl, by decide, by decide,
      ⟨[⟨"agent-bin", abcDigest⟩]⟩, by decide, by decide⟩

/-! ## Lemmas on two successive reconciliations -/

theorem fetchAndReplace_ok_hash {V : Type} (env : Env V) (entry : BundleDictionaryEntry)
    (sig : String) (s : State) (h : (fetchAndReplace env entry sig s).1 = none) :
    hashFile (fetchAndReplace env entry sig s).2.fs entry.Path = sig := by
  have hb := (fetchAndReplaceBody_spec env entry sig
    (s.emit (.fetchAndReplace entry sig))).2.2.2.2
  rw [fetchAndReplace_fst] at h
  rw [fetchAndReplace_snd]
  obtain ⟨b, _, hsig, hfs, _, _⟩ := hb (by simpa using h)
  unfold hashFile
  rw [hfs]
  exact hsig.symm

theorem hashFile_congr (fs1 fs2 : FileSystem) (p : String) (h : fs1 p = fs2 p) :
    hashFile fs1 p = hashFile fs2 p := by
  unfold hashFile
  rw [h]

theorem mem_HashBundle (fs : FileSystem) (l : List BundleDictionaryEntry)
    (y : BundleDictionaryEntry) (hy : y ∈ HashBundle fs l) :
    ∃ e ∈ l, y.Path = e.Path ∧ y.Name = e.Name := by
  unfold HashBundle at hy
  obtain ⟨e, he, rfl⟩ := List.mem_map.mp hy
  exact ⟨e, he, rfl, rfl⟩

/-- After a reconciliation that returns no error, over an inventory taken from `fs0` of a
bundle whose paths are apart and not yet written, the file of every entry matched by the
manifest has the hash the manifest gives. -/
theorem compareManifestLoop_reconciled {V : Type} (env : Env V) (m : ManifestResponse)
    (fs0 : FileSystem) (l : List BundleDictionaryEntry) :
    ∀ s : State, s.apiManifest = some m → pathsApart l →
      (∀ e ∈ l, s.fs e.Path = fs0 e.Path) →
      (compareManifestLoop env (HashBundle fs0 l) s).1 = none →
      ∀ e ∈ l, ∀ c, findEntry e.Name m.Entries = some c →
        hashFile (compareManifestLoop env (HashBundle fs0 l) s).2.fs e.Path = c.SHA256 := by
  induction l with
  | nil => intro s _ _ _ _ e he; simp at he
  | cons x xs ih =>
    intro s hm hp hfs hok
    have hp2 := List.pairwise_cons.mp hp
    obtain ⟨f1, f2, _⟩ := checkEntry_frame env { x with SHA256 := hashFile fs0 x.Path } s
    simp only [HashBundle, List.map_cons, compareManifestLoop] at hok ⊢
    rcases hc : checkEntry env { x with SHA256 := hashFile fs0 x.Path } s with ⟨r, s1⟩
    rw [hc] at hok f1 f2
    simp only at f1 f2
    cases r with
    | some e => simp at hok
    | none =>
      simp only at hok ⊢
      have hfs1 : ∀ e ∈ xs, s1.fs e.Path = fs0 e.Path := by
        intro e he
        obtain ⟨a1, _, a3⟩ := hp2.1 e he
        rw [f1 e.Path (fun h => a1 h.symm) a3]
        exact hfs e (by simp [he])
      have ih2 := ih s1 (f2.trans hm) hp2.2 hfs1 hok
      intro e he c hf
      rcases List.mem_cons.mp he with rfl | he
      · have hkeep := (compareManifestLoop_frame env (HashBundle fs0 xs) s1).1 e.Path (by
          intro y hy
          obtain ⟨z, hz, hzp, _⟩ := mem_HashBundle fs0 xs y hy
          obtain ⟨a1, a2, _⟩ := hp2.1 z hz
          rw [hzp]
          exact ⟨a1, a2⟩)
        simp only [HashBundle] at hkeep
        rw [hashFile_congr _ _ _ hkeep]
        by_cases heq : hashFile fs0 e.Path = c.SHA256
        · have := checkEntry_of_equal env { e with SHA256 := hashFile fs0 e.Path } s m c hm hf heq
          rw [hc] at this
          cases this
          rw [hashFile_congr _ _ _ (hfs e (by simp))]
          exact heq
        · obtain ⟨g1, g2⟩ :=
            checkEntry_of_differ env { e with SHA256 := hashFile fs0 e.Path } s m c hm hf heq
          rw [hc] at g1 g2
          simp only at g1 g2
          have hnone : (fetchAndReplace env { e with SHA256 := hashFile fs0 e.Path } c.SHA256
              { s with haveChanges := true }).1 = none := by
            cases hh : (fetchAndReplace env { e with SHA256 := hashFile fs0 e.Path } c.SHA256
              { s with haveChanges := true }).1 with
            | none => rfl
            | some e2 => rw [hh] at g1; simp at g1
          have := fetchAndReplace_ok_hash env _ _ _ hnone
          rw [← g2] at this
          exact this
      · exact ih2 e he c hf

/-- A reconciliation over an inventory taken from the file system of the state, when the
file of every matched entry has the hash the manifest gives, does nothing. -/
theorem compareManifestLoop_settled {V : Type} (env : Env V) (m : ManifestResponse)
    (t : State) (hm : t.apiManifest = some m) (l : List BundleDictionaryEntry)
    (h : ∀ e ∈ l, ∀ c, findEntry e.Name m.Entries = some c →
      hashFile t.fs e.Path = c.SHA256) :
    compareManifestLoop env (HashBundle t.fs l) t = (none, t) := by
  induction l with
  | nil => rfl
  | cons x xs ih =>
    simp only [HashBundle, List.map_cons, compareManifestLoop]
    have hx : checkEntry env { x with SHA256 := hashFile t.fs x.Path } t = (none, t) := by
      cases hf : findEntry x.Name m.Entries with
      | none => exact checkEntry_of_none env _ t m hm hf
      | some c => exact checkEntry_of_equal env _ t m c hm hf (h x (by simp) c hf)
    rw [hx]
    exact ih (fun e he => h e (by simp [he]))

/-! ## Claim on idempotence -/

/-- C7, as the code has it.  Idempotence for a bundle whose paths are apart: no two entries
share a live path and no live path is the staging path of another entry.  When a first
reconciliation over the inventory of the file system returns no error, a second one in a new
process (`haveChanges` false), against the same manifest and over the inventory of the file
system the first one left, returns no error and the state it started from: it records no call,
so `fetchAndReplace` is called zero times, and `haveChanges` is still false.  A matched entry
whose hash is the manifest hash is a no-op. -/
theorem compareManifest_second_run_idle {V W : Type} (env : Env V) (env2 : Env W)
    (bundle : List BundleDictionaryEntry) (m : ManifestResponse) (s t : State)
    (hp : pathsApart bundle) (hm : s.apiManifest = some m)
    (hrun : (compareManifest env (HashBundle s.fs bundle) s).1 = none)
    (htm : t.apiManifest = some m)
    (htfs : t.fs = (compareManifest env (HashBundle s.fs bundle) s).2.fs)
    (htc : t.haveChanges = false) :
    compareManifest env2 (HashBundle t.fs bundle) t = (none, t) ∧
    (compareManifest env2 (HashBundle t.fs bundle) t).2.trace = t.trace ∧
    (compareManifest env2 (HashBundle t.fs bundle) t).2.haveChanges = false ∧
    (∀ (entry : BundleDictionaryEntry) (c : ManifestEntry),
      findEntry entry.Name m.Entries = some c → entry.SHA256 = c.SHA256 →
      checkEntry env2 entry t = (none, t)) := by
  have hrec := compareManifestLoop_reconciled env m s.fs bundle s hm hp (fun _ _ => rfl)
    (by rw [compareManifest_fst] at hrun; simpa using hrun)
  rw [← compareManifest_snd, ← htfs] at hrec
  have hidle := compareManifestLoop_settled env2 m t htm bundle hrec
  have hcm : compareManifest env2 (HashBundle t.fs bundle) t = (none, t) := by
    unfold compareManifest
    rw [hidle]
  refine ⟨hcm, by rw [hcm], by rw [hcm]; exact htc, ?_⟩
  intro entry c hf he
  exact checkEntry_of_equal env2 entry t m c htm hf he

set_option maxRecDepth 100000 in
theorem compareManifest_second_run_idle_witness :
    (compareManifest (serverEnv 200 ⟨[⟨"agent-bin", abcDigest⟩]⟩ fun _ => abc)
      (HashBundle (compareManifest (serverEnv 200 ⟨[⟨"agent-bin", abcDigest⟩]⟩ fun _ => abc)
        (HashBundle oldFs [agentBin])
        { initialState oldFs with apiManifest := some ⟨[⟨"agent-bin", abcDigest⟩]⟩ }).2.fs
        [agentBin])
      { initialState (compareManifest (serverEnv 200 ⟨[⟨"agent-bin", abcDigest⟩]⟩ fun _ => abc)
          (HashBundle oldFs [agentBin])
          { initialState oldFs with apiManifest := some ⟨[⟨"agent-bin", abcDigest⟩]⟩ }).2.fs
        with apiManifest := some ⟨[⟨"agent-bin", abcDigest⟩]⟩ }).2.haveChanges = false :=
  (compareManifest_second_run_idle
    (serverEnv 200 ⟨[⟨"agent-bin", abcDigest⟩]⟩ fun _ => abc)
    (serverEnv 200 ⟨[⟨"agent-bin", abcDigest⟩]⟩ fun _ => abc)
    [agentBin] ⟨[⟨"agent-bin", abcDigest⟩]⟩
    { initialState oldFs with apiManifest := some ⟨[⟨"agent-bin", abcDigest⟩]⟩ }
    { initialState (compareManifest (serverEnv 200 ⟨[⟨"agent-bin", abcDigest⟩]⟩ fun _ => abc)
        (HashBundle oldFs [agentBin])
        { initialState oldFs with apiManifest := some ⟨[⟨"agent-bin", abcDigest⟩]⟩ }).2.fs
      with apiManifest := some ⟨[⟨"agent-bin", abcDigest⟩]⟩ }
    (List.pairwise_singleton _ _) rfl (by decide) rfl rfl rfl).2.2.1

set_option maxRecDepth 100000 in
/-- C7 fails as stated: for a have list with two entries that share a live path and that the
manifest gives different hashes, the first reconciliation returns no error, and the second one,
over the inventory of the file system the first one left, calls `fetchAndReplace` again and
ends with `haveChanges` true.  The same happens for a have list in which the live path of one
entry is the staging path of another: installing the one removes the file of the other. -/
theorem compareManifest_shared_path_not_idempotent :
    (sharedRunOne.1 = none ∧
      sharedRunTwo.1 = none ∧
      sharedRunTwo.2.haveChanges = true ∧
      sharedRunTwo.2.trace =
        [.fetchAndReplace ⟨"agent-bin", "/opt/a/bin", emptyDigest⟩ abcDigest,
         .fetchFile "agent-bin", .rename "/opt/a/bin.loader" "/opt/a/bin"]) ∧
    (stagingRunOne.1 = none ∧
      stagingRunTwo.1 = none ∧
      stagingRunTwo.2.haveChanges = true ∧
      stagingRunTwo.2.trace =
        [.fetchAndReplace ⟨"agent-cfg", "/opt/a/bin.loader", ""⟩ emptyDigest,
         .fetchFile "agent-cfg", .rename "/opt/a/bin.loader.loader" "/opt/a/bin.loader"]) := by
  decide

/-! ## Claims on the manifest client -/

theorem requestManifestBody_withStatus {V : Type} (env : Env V) (st : Nat) (s : State) :
    requestManifestBody (withStatus env st) s = requestManifestBody env s := by
  unfold requestManifestBody
  simp only [withStatus, operatorTag, valueToManifest]
  cases env.httpPost s.clock (env.APIURL ++ "manifest")
    { OS := env.GOOS, Arch := env.GOARCH,
      Operator := if env.Operator = "" then "default" else env.Operator, Object := "" } <;> rfl

/-- C9, as the code has it.  `requestManifest` does not look at the status code of the
response: replacing the status code of the response by any other leaves its result the same.
For a response with body `body`, of whatever status: when the body decodes to an envelope whose
first item has a first data value that decodes to a manifest, `requestManifest` returns no
error and sets `apiManifest` to that manifest; whenever it returns an error it leaves
`apiManifest` as it was, and `main` then exits with status 1 having recorded no call. -/
theorem requestManifest_ignores_status {V : Type} (env : Env V) (s : State) (status : Nat)
    (body : List Nat)
    (h : env.httpPost s.clock (env.APIURL ++ "manifest")
      { OS := env.GOOS, Arch := env.GOARCH, Operator := operatorTag env, Object := "" } =
        .response status body) :
    (∀ st, requestManifest (withStatus env st) s = requestManifest env s) ∧
    (∀ resource v manifest, env.jsonUnmarshalResource body = .ok resource →
      firstValue resource = .ok v → valueToManifest env v = .ok manifest →
      requestManifest env s = (none, { s.tick with apiManifest := some manifest })) ∧
    ((requestManifest env s).1 ≠ none →
      (requestManifest env s).2.apiManifest = s.apiManifest) ∧
    (∀ fs, (requestManifest env (initialState fs)).1 ≠ none →
      (main env fs).1 = 1 ∧ (main env fs).2.trace = []) := by
  refine ⟨?_, ?_, ?_, ?_⟩
  · intro st
    unfold requestManifest
    rw [requestManifestBody_withStatus]
  · intro resource v manifest h1 h2 h3
    unfold requestManifest requestManifestBody
    simp only [h, h1, h2, h3]
  · exact (requestManifest_state env s).2.2.2.2
  · intro fs hne
    have htr := (requestManifest_state env (initialState fs)).2.1
    unfold main
    cases env.initContext with
    | some e => exact ⟨rfl, rfl⟩
    | none =>
      simp only
      cases initializeHaveBundle env (initialState fs) with
      | error e => exact ⟨rfl, rfl⟩
      | ok hv =>
        simp only
        rcases hr : requestManifest env (initialState fs) with ⟨a, s1⟩
        rw [hr] at hne htr
        simp only at hne htr
        cases a with
        | none => exact absurd rfl hne
        | some e => exact ⟨rfl, htr⟩

theorem requestManifest_ignores_status_witness :
    requestManifest (withStatus (serverEnv 200 ⟨[⟨"agent-bin", "bbb"⟩]⟩ fun _ => abc) 503)
      (initialState oldFs) =
    requestManifest (serverEnv 200 ⟨[⟨"agent-bin", "bbb"⟩]⟩ fun _ => abc)
      (initialState oldFs) :=
  (requestManifest_ignores_status (serverEnv 200 ⟨[⟨"agent-bin", "bbb"⟩]⟩ fun _ => abc)
    (initialState oldFs) 200 abc rfl).1 503

/-- C9 fails as stated: a response with status 500 whose body is a well-formed envelope
holding a manifest makes `requestManifest` return no error and set `apiManifest`. -/
theorem requestManifest_accepts_status_500 :
    ¬ (200 ≤ 500 ∧ 500 ≤ 299) ∧
    (serverEnv 500 ⟨[⟨"agent-bin", "bbb"⟩]⟩ fun _ => abc).httpPost 0
      ((serverEnv 500 ⟨[⟨"agent-bin", "bbb"⟩]⟩ fun _ => abc).APIURL ++ "manifest")
      ⟨"linux", "amd64", "default", ""⟩ = .response 500 abc ∧
    (requestManifest (serverEnv 500 ⟨[⟨"agent-bin", "bbb"⟩]⟩ fun _ => abc)
      (initialState oldFs)).1 = none ∧
    (requestManifest (serverEnv 500 ⟨[⟨"agent-bin", "bbb"⟩]⟩ fun _ => abc)
      (initialState oldFs)).2.apiManifest = some ⟨[⟨"agent-bin", "bbb"⟩]⟩ := by
  refine ⟨by decide, rfl, by decide, by decide⟩

/-- C10. A malformed envelope is turned into an error.  When the body of the response does
not unmarshal, or unmarshals to a nil resource, or to a resource whose collection has no item
or whose first item has no data, `requestManifest` returns an error that starts with
"requestManifest() -> " and leaves `apiManifest` as it was, and `fetchFile` returns an error
that starts with "fetchFile() -> ".  The text that follows is the error of `json.Unmarshal` in
the first case, the panic of the nil dereference in the second and the panic of the index out
of range in the others. -/
theorem malformed_envelope_is_error {V : Type} (env : Env V) (s : State) (n : String)
    (status : Nat) (body : List Nat) (msg : String)
    (hbad : env.jsonUnmarshalResource body = .error msg ∨
      (env.jsonUnmarshalResource body = .ok none ∧ msg = nilDeref) ∨
      (∃ r, env.jsonUnmarshalResource body = .ok (some r) ∧ r.Collection.Items = [] ∧
        msg = indexOutOfRange) ∨
      (∃ r item rest, env.jsonUnmarshalResource body = .ok (some r) ∧
        r.Collection.Items = item :: rest ∧ item.Data = [] ∧ msg = indexOutOfRange)) :
    (env.httpPost s.clock (env.APIURL ++ "manifest")
        { OS := env.GOOS, Arch := env.GOARCH, Operator := operatorTag env, Object := "" } =
          .response status body →
      (requestManifest env s).1 = some ("requestManifest() -> " ++ msg) ∧
      (requestManifest env s).2.apiManifest = s.apiManifest) ∧
    (env.httpPost s.clock (env.APIURL ++ "manifest/fetch")
        { OS := env.GOOS, Arch := env.GOARCH, Operator := operatorTag env, Object := n } =
          .response status body →
      (fetchFile env n s).1 = .error ("fetchFile() -> " ++ msg) ∧
      (fetchFile env n s).2.apiManifest = s.apiManifest ∧
      (fetchFile env n s).2.fs = s.fs) := by
  constructor
  · intro h
    have hb : requestManifestBody env s = .error msg := by
      unfold requestManifestBody
      simp only [h]
      rcases hbad with h1 | ⟨h1, rfl⟩ | ⟨r, h1, h2, rfl⟩ | ⟨r, item, rest, h1, h2, h3, rfl⟩
      · simp only [h1]
      · simp only [h1, firstValue]
      · simp only [h1, firstValue, h2]
      · simp only [h1, firstValue, h2, h3]
    unfold requestManifest
    rw [hb]
    exact ⟨rfl, rfl⟩
  · intro h
    have hb : fetchFileBody env n s = .error msg := by
      unfold fetchFileBody
      simp only [h]
      rcases hbad with h1 | ⟨h1, rfl⟩ | ⟨r, h1, h2, rfl⟩ | ⟨r, item, rest, h1, h2, h3, rfl⟩
      · simp only [h1]
      · simp only [h1, firstValue]
      · simp only [h1, firstValue, h2]
      · simp only [h1, firstValue, h2, h3]
    unfold fetchFile
    rw [hb]
    exact ⟨rfl, rfl, rfl⟩

theorem malformed_envelope_is_error_witness :
    (requestManifest nullBodyEnv (initialState oldFs)).1 =
      some ("requestManifest() -> " ++ nilDeref) ∧
    (requestManifest nullBodyEnv (initialState oldFs)).2.apiManifest = none :=
  (malformed_envelope_is_error nullBodyEnv (initialState oldFs) "agent-bin" 200 abc nilDeref
    (Or.inr (Or.inl ⟨rfl, rfl⟩))).1 rfl

end Loader
